import Mathlib

/-!
Verification of the ESP32 thermal-camera firmware core against its
natural-language specification.

The definitions below are shallow embeddings of the C sources
(`senxorTask.c`, `cmdParser.c`, `cmdServerTask.c`, `tcpServerTask.c`,
`Drv_CombustionBle.c`) and of the JavaScript relay (`server.js`) and the
Swift client (`BLEManager.swift`).  Machine integers are modelled as `Nat`
(with explicit `% 2^w` where C performs a narrowing conversion), buffers as
total functions `Nat → Nat`, and external collaborators (sensor register
file, NVS key-value store, firmware-version provider) as parameters.
-/

set_option maxRecDepth 20000

/-! ## Quadrant engine (senxorTask.c) -/

/-- `SENXOR_FRAME_WIDTH` from senxorTask.h. -/
def SENXOR_FRAME_WIDTH : Nat := 80

/-- `SENXOR_FRAME_HEIGHT` from main/include/senxorTask.h: the image height
(the 80x64-word frame holds 2 header rows plus 62 image rows). -/
def SENXOR_FRAME_HEIGHT : Nat := 62

/-- `DEFAULT_XSPLIT` from senxorTask.h. -/
def DEFAULT_XSPLIT : Nat := 40

/-- `DEFAULT_YSPLIT` from senxorTask.h. -/
def DEFAULT_YSPLIT : Nat := 31

/-- The quadrant analysis state: `quadrantData_t` together with the burner
fields used by `senxorTask.c` (`mQuadrantData`).  All fields are machine
integers modelled as `Nat` (`uint16_t` for max/center/burner-temperature
values, `uint8_t` for splits and burner coordinates). -/
structure QuadrantData where
  Amax : Nat
  Acenter : Nat
  Bmax : Nat
  Bcenter : Nat
  Cmax : Nat
  Ccenter : Nat
  Dmax : Nat
  Dcenter : Nat
  Xsplit : Nat
  Ysplit : Nat
  Aburnerx : Nat
  Aburnery : Nat
  Aburnert : Nat
  Bburnerx : Nat
  Bburnery : Nat
  Bburnert : Nat
  Cburnerx : Nat
  Cburnery : Nat
  Cburnert : Nat
  Dburnerx : Nat
  Dburnery : Nat
  Dburnert : Nat
  deriving Repr, DecidableEq

/-- `NVS_ReadU8` (DrvNVS.c): value stored under the key, or the default when
the key is absent (or the store is unavailable, modelled as absence). -/
def NVS_ReadU8 (nvs : String → Option Nat) (key : String) (defaultValue : Nat) : Nat :=
  match nvs key with
  | some v => v
  | none => defaultValue

/-- `quadrant_Init` (senxorTask.c): load split values from NVS with range
validation, compute default burner coordinates, load burner coordinates from
NVS (no validation), zero all computed values. -/
def quadrant_Init (nvs : String → Option Nat) : QuadrantData :=
  let xsplit0 := NVS_ReadU8 nvs "xsplit" DEFAULT_XSPLIT
  let ysplit0 := NVS_ReadU8 nvs "ysplit" DEFAULT_YSPLIT
  let xsplit := if xsplit0 > SENXOR_FRAME_WIDTH then DEFAULT_XSPLIT else xsplit0
  let ysplit := if ysplit0 > SENXOR_FRAME_HEIGHT then DEFAULT_YSPLIT else ysplit0
  let defAx := DEFAULT_XSPLIT / 2
  let defAy := DEFAULT_YSPLIT / 2
  let defBx := DEFAULT_XSPLIT + (SENXOR_FRAME_WIDTH - DEFAULT_XSPLIT) / 2
  let defBy := DEFAULT_YSPLIT / 2
  let defCx := DEFAULT_XSPLIT / 2
  let defCy := DEFAULT_YSPLIT + (SENXOR_FRAME_HEIGHT - DEFAULT_YSPLIT) / 2
  let defDx := DEFAULT_XSPLIT + (SENXOR_FRAME_WIDTH - DEFAULT_XSPLIT) / 2
  let defDy := DEFAULT_YSPLIT + (SENXOR_FRAME_HEIGHT - DEFAULT_YSPLIT) / 2
  { Xsplit := xsplit, Ysplit := ysplit
    Amax := 0, Acenter := 0, Bmax := 0, Bcenter := 0
    Cmax := 0, Ccenter := 0, Dmax := 0, Dcenter := 0
    Aburnerx := NVS_ReadU8 nvs "aburnerx" defAx
    Aburnery := NVS_ReadU8 nvs "aburnery" defAy
    Bburnerx := NVS_ReadU8 nvs "bburnerx" defBx
    Bburnery := NVS_ReadU8 nvs "bburnery" defBy
    Cburnerx := NVS_ReadU8 nvs "cburnerx" defCx
    Cburnery := NVS_ReadU8 nvs "cburnery" defCy
    Dburnerx := NVS_ReadU8 nvs "dburnerx" defDx
    Dburnery := NVS_ReadU8 nvs "dburnery" defDy
    Aburnert := 0, Bburnert := 0, Cburnert := 0, Dburnert := 0 }

/-- The pixel positions visited by the scan loop of `quadrant_Calculate`,
as `(y, x)` pairs in loop order: `y` from `0` to `SENXOR_FRAME_HEIGHT - 1`
outer, `x` from `0` to `SENXOR_FRAME_WIDTH - 1` inner. -/
def scanPositions : List (Nat × Nat) :=
  (List.range SENXOR_FRAME_HEIGHT).flatMap fun y =>
    (List.range SENXOR_FRAME_WIDTH).map fun x => (y, x)

/-- One iteration of the scan loop body of `quadrant_Calculate`: classify the
pixel at `(y, x)` against the split point and update the appropriate running
maximum of the state `(Amax, Bmax, Cmax, Dmax)`. -/
def quadStep (xsplit ysplit : Nat) (imageData : Nat → Nat)
    (m : Nat × Nat × Nat × Nat) (p : Nat × Nat) : Nat × Nat × Nat × Nat :=
  let y := p.1
  let x := p.2
  let pixel := imageData (y * SENXOR_FRAME_WIDTH + x)
  match m with
  | (a, b, c, d) =>
    if x < xsplit ∧ y < ysplit then
      (if pixel > a then pixel else a, b, c, d)
    else if x ≥ xsplit ∧ y < ysplit then
      (a, if pixel > b then pixel else b, c, d)
    else if x < xsplit ∧ y ≥ ysplit then
      (a, b, if pixel > c then pixel else c, d)
    else
      (a, b, c, if pixel > d then pixel else d)

/-- Quadrant A center x-coordinate (`Acx` in `quadrant_Calculate`), after the
clamp to the valid range. -/
def quadAcx (xsplit : Nat) : Nat :=
  let Acx := xsplit / 2
  if Acx ≥ SENXOR_FRAME_WIDTH then SENXOR_FRAME_WIDTH - 1 else Acx

/-- Quadrant A center y-coordinate (`Acy`), after the clamp. -/
def quadAcy (ysplit : Nat) : Nat :=
  let Acy := ysplit / 2
  if Acy ≥ SENXOR_FRAME_HEIGHT then SENXOR_FRAME_HEIGHT - 1 else Acy

/-- C narrowing conversion to `uint8_t`. -/
def u8wrap (x : Int) : Nat := (x % 256).toNat

/-- The far-edge center coordinate `split + (dimension - split) / 2`
(`Bcx`, `Ccy`, `Dcx`, `Dcy` in `quadrant_Calculate`), computed in `int`
arithmetic (C division truncating toward zero) and stored into a `uint8_t`,
before the clamp. -/
def quadFar (split dim : Nat) : Nat :=
  u8wrap ((split : Int) + Int.tdiv ((dim : Int) - (split : Int)) 2)

/-- Quadrant B center x-coordinate (`Bcx`), after the clamp. -/
def quadBcx (xsplit : Nat) : Nat :=
  let Bcx := quadFar xsplit SENXOR_FRAME_WIDTH
  if Bcx ≥ SENXOR_FRAME_WIDTH then SENXOR_FRAME_WIDTH - 1 else Bcx

/-- Quadrant C center y-coordinate (`Ccy`), after the clamp. -/
def quadCcy (ysplit : Nat) : Nat :=
  let Ccy := quadFar ysplit SENXOR_FRAME_HEIGHT
  if Ccy ≥ SENXOR_FRAME_HEIGHT then SENXOR_FRAME_HEIGHT - 1 else Ccy

/-- `quadrant_Calculate` (senxorTask.c): reset the four maxima to 0, scan the
frame starting two header rows in (`imageData = frameData + 2 * 80`) over
`SENXOR_FRAME_HEIGHT` rows by `SENXOR_FRAME_WIDTH` columns classifying each
pixel against the split point, then sample the four clamped quadrant centers
and the four stored burner coordinates.  The frame is modelled as a total
function from word index to pixel value. -/
def quadrant_Calculate (frameData : Nat → Nat) (st : QuadrantData) : QuadrantData :=
  let xsplit := st.Xsplit
  let ysplit := st.Ysplit
  let imageData := fun i => frameData (2 * SENXOR_FRAME_WIDTH + i)
  let m := scanPositions.foldl (quadStep xsplit ysplit imageData) (0, 0, 0, 0)
  let Acx := quadAcx xsplit
  let Acy := quadAcy ysplit
  let Bcx := quadBcx xsplit
  let Bcy := quadAcy ysplit
  let Ccx := quadAcx xsplit
  let Ccy := quadCcy ysplit
  let Dcx := quadBcx xsplit
  let Dcy := quadCcy ysplit
  { st with
    Amax := m.1
    Acenter := imageData (Acy * SENXOR_FRAME_WIDTH + Acx)
    Bmax := m.2.1
    Bcenter := imageData (Bcy * SENXOR_FRAME_WIDTH + Bcx)
    Cmax := m.2.2.1
    Ccenter := imageData (Ccy * SENXOR_FRAME_WIDTH + Ccx)
    Dmax := m.2.2.2
    Dcenter := imageData (Dcy * SENXOR_FRAME_WIDTH + Dcx)
    Aburnert := imageData (st.Aburnery * SENXOR_FRAME_WIDTH + st.Aburnerx)
    Bburnert := imageData (st.Bburnery * SENXOR_FRAME_WIDTH + st.Bburnerx)
    Cburnert := imageData (st.Cburnery * SENXOR_FRAME_WIDTH + st.Cburnerx)
    Dburnert := imageData (st.Dburnery * SENXOR_FRAME_WIDTH + st.Dburnerx) }

/-- The frame word indices read by `quadrant_Calculate`: the scan, the four
center samples and the four burner samples, every access of the form
`imageData[i] = frameData[2 * 80 + i]`. -/
def quadrant_Calculate_readIndices (st : QuadrantData) : List Nat :=
  let off := 2 * SENXOR_FRAME_WIDTH
  scanPositions.map (fun p => off + p.1 * SENXOR_FRAME_WIDTH + p.2)
    ++ [off + quadAcy st.Ysplit * SENXOR_FRAME_WIDTH + quadAcx st.Xsplit,
        off + quadAcy st.Ysplit * SENXOR_FRAME_WIDTH + quadBcx st.Xsplit,
        off + quadCcy st.Ysplit * SENXOR_FRAME_WIDTH + quadAcx st.Xsplit,
        off + quadCcy st.Ysplit * SENXOR_FRAME_WIDTH + quadBcx st.Xsplit,
        off + st.Aburnery * SENXOR_FRAME_WIDTH + st.Aburnerx,
        off + st.Bburnery * SENXOR_FRAME_WIDTH + st.Bburnerx,
        off + st.Cburnery * SENXOR_FRAME_WIDTH + st.Cburnerx,
        off + st.Dburnery * SENXOR_FRAME_WIDTH + st.Dburnerx]

/-! ### Running-maximum characterization of the scan loop -/

/-- The pixel value the scan reads at position `(y, x)` of the (header-offset)
image pointer. -/
def scanVal (imageData : Nat → Nat) (p : Nat × Nat) : Nat :=
  imageData (p.1 * SENXOR_FRAME_WIDTH + p.2)

lemma if_gt_eq_max (a p : Nat) : (if p > a then p else a) = max a p := by
  rcases Nat.lt_or_ge a p with h | h
  · simp [h, Nat.max_eq_right (Nat.le_of_lt h)]
  · simp [Nat.not_lt.mpr h, Nat.max_eq_left h]

lemma foldl_max_init_le {α : Type} (f : α → Nat) :
    ∀ (l : List α) (a : Nat), a ≤ l.foldl (fun m x => max m (f x)) a := by
  intro l
  induction l with
  | nil => intro a; simp
  | cons x l ih =>
    intro a
    exact le_trans (Nat.le_max_left a (f x)) (ih (max a (f x)))

lemma le_foldl_max_of_mem {α : Type} (f : α → Nat) :
    ∀ (l : List α) (a : Nat) (x : α), x ∈ l → f x ≤ l.foldl (fun m x => max m (f x)) a := by
  intro l
  induction l with
  | nil => intro a x hx; simp at hx
  | cons y l ih =>
    intro a x hx
    rcases List.mem_cons.mp hx with h | h
    · subst h
      exact le_trans (Nat.le_max_right a (f x)) (foldl_max_init_le f l _)
    · exact ih _ x h

lemma foldl_max_le {α : Type} (f : α → Nat) (v : Nat) :
    ∀ (l : List α) (a : Nat), a ≤ v → (∀ x ∈ l, f x ≤ v) →
      l.foldl (fun m x => max m (f x)) a ≤ v := by
  intro l
  induction l with
  | nil => intro a ha _; simpa using ha
  | cons x l ih =>
    intro a ha hl
    refine ih _ (Nat.max_le.mpr ⟨ha, hl x (List.mem_cons_self x l)⟩) ?_
    intro y hy
    exact hl y (List.mem_cons_of_mem x hy)

lemma foldl_max_lt {α : Type} (f : α → Nat) (v : Nat) :
    ∀ (l : List α) (a : Nat), a < v → (∀ x ∈ l, f x < v) →
      l.foldl (fun m x => max m (f x)) a < v := by
  intro l
  induction l with
  | nil => intro a ha _; simpa using ha
  | cons x l ih =>
    intro a ha hl
    refine ih _ (Nat.max_lt.mpr ⟨ha, hl x (List.mem_cons_self x l)⟩) ?_
    intro y hy
    exact hl y (List.mem_cons_of_mem x hy)

lemma foldl_max_eq {α : Type} (f : α → Nat) (v : Nat) (l : List α) (x : α)
    (hx : x ∈ l) (hfx : f x = v) (hbound : ∀ y ∈ l, f y ≤ v) :
    l.foldl (fun m x => max m (f x)) 0 = v := by
  refine Nat.le_antisymm (foldl_max_le f v l 0 (Nat.zero_le v) hbound) ?_
  calc v = f x := hfx.symm
    _ ≤ _ := le_foldl_max_of_mem f l 0 x hx

/-- The scan-loop fold computes, in each component, the running maximum of
the pixel values over the positions classified into that quadrant. -/
lemma quadStep_foldl_eq (xs ys : Nat) (img : Nat → Nat) :
    ∀ (l : List (Nat × Nat)) (a b c d : Nat),
      l.foldl (quadStep xs ys img) (a, b, c, d) =
        ((l.filter fun p => decide (p.2 < xs) && decide (p.1 < ys)).foldl
            (fun m p => max m (scanVal img p)) a,
         (l.filter fun p => decide (p.2 ≥ xs) && decide (p.1 < ys)).foldl
            (fun m p => max m (scanVal img p)) b,
         (l.filter fun p => decide (p.2 < xs) && decide (p.1 ≥ ys)).foldl
            (fun m p => max m (scanVal img p)) c,
         (l.filter fun p => decide (p.2 ≥ xs) && decide (p.1 ≥ ys)).foldl
            (fun m p => max m (scanVal img p)) d) := by
  intro l
  induction l with
  | nil => intro a b c d; simp
  | cons p l ih =>
    intro a b c d
    rcases p with ⟨y, x⟩
    simp only [List.foldl_cons, List.filter_cons]
    by_cases hx : x < xs <;> by_cases hy : y < ys
    · rw [show quadStep xs ys img (a, b, c, d) (y, x) = (max a (scanVal img (y, x)), b, c, d) by
        simp [quadStep, scanVal, hx, hy, if_gt_eq_max]]
      rw [ih]
      simp [hx, hy, Nat.not_le.mpr hx, Nat.not_le.mpr hy]
    · rw [show quadStep xs ys img (a, b, c, d) (y, x) = (a, b, max c (scanVal img (y, x)), d) by
        simp [quadStep, scanVal, hx, hy, Nat.not_lt.mp hy, if_gt_eq_max]]
      rw [ih]
      simp [hx, hy, Nat.not_le.mpr hx, Nat.not_lt.mp hy]
    · rw [show quadStep xs ys img (a, b, c, d) (y, x) = (a, max b (scanVal img (y, x)), c, d) by
        simp [quadStep, scanVal, hx, hy, Nat.not_lt.mp hx, if_gt_eq_max]]
      rw [ih]
      simp [hx, hy, Nat.not_lt.mp hx, Nat.not_le.mpr hy]
    · rw [show quadStep xs ys img (a, b, c, d) (y, x) = (a, b, c, max d (scanVal img (y, x))) by
        simp [quadStep, scanVal, hx, hy, Nat.not_lt.mp hx, Nat.not_lt.mp hy, if_gt_eq_max]]
      rw [ih]
      simp [hx, hy, Nat.not_lt.mp hx, Nat.not_lt.mp hy]

/-- The `imageData` pointer of `quadrant_Calculate`: the frame two header
rows in. -/
def imageAt (frameData : Nat → Nat) : Nat → Nat :=
  fun i => frameData (2 * SENXOR_FRAME_WIDTH + i)

lemma mem_scanPositions {p : Nat × Nat} :
    p ∈ scanPositions ↔ p.1 < SENXOR_FRAME_HEIGHT ∧ p.2 < SENXOR_FRAME_WIDTH := by
  rcases p with ⟨y, x⟩
  constructor
  · intro h
    rcases List.mem_flatMap.mp h with ⟨a, ha, hmem⟩
    rcases List.mem_map.mp hmem with ⟨b, hb, heq⟩
    cases heq
    exact ⟨List.mem_range.mp ha, List.mem_range.mp hb⟩
  · rintro ⟨hy, hx⟩
    exact List.mem_flatMap.mpr ⟨y, List.mem_range.mpr hy,
      List.mem_map.mpr ⟨x, List.mem_range.mpr hx, rfl⟩⟩

lemma quadrant_Calculate_Amax (f : Nat → Nat) (st : QuadrantData) :
    (quadrant_Calculate f st).Amax =
      (scanPositions.filter fun p => decide (p.2 < st.Xsplit) && decide (p.1 < st.Ysplit)).foldl
        (fun m p => max m (scanVal (imageAt f) p)) 0 := by
  unfold quadrant_Calculate
  simp only [quadStep_foldl_eq]
  rfl

lemma quadrant_Calculate_Bmax (f : Nat → Nat) (st : QuadrantData) :
    (quadrant_Calculate f st).Bmax =
      (scanPositions.filter fun p => decide (p.2 ≥ st.Xsplit) && decide (p.1 < st.Ysplit)).foldl
        (fun m p => max m (scanVal (imageAt f) p)) 0 := by
  unfold quadrant_Calculate
  simp only [quadStep_foldl_eq]
  rfl

lemma quadrant_Calculate_Cmax (f : Nat → Nat) (st : QuadrantData) :
    (quadrant_Calculate f st).Cmax =
      (scanPositions.filter fun p => decide (p.2 < st.Xsplit) && decide (p.1 ≥ st.Ysplit)).foldl
        (fun m p => max m (scanVal (imageAt f) p)) 0 := by
  unfold quadrant_Calculate
  simp only [quadStep_foldl_eq]
  rfl

lemma quadrant_Calculate_Dmax (f : Nat → Nat) (st : QuadrantData) :
    (quadrant_Calculate f st).Dmax =
      (scanPositions.filter fun p => decide (p.2 ≥ st.Xsplit) && decide (p.1 ≥ st.Ysplit)).foldl
        (fun m p => max m (scanVal (imageAt f) p)) 0 := by
  unfold quadrant_Calculate
  simp only [quadStep_foldl_eq]
  rfl

lemma scanMax_lt_of_ne (v : Nat) (img : Nat → Nat) (q : Nat × Nat → Bool) (y0 x0 : Nat)
    (hv : 0 < v)
    (hdomlt : ∀ p ∈ scanPositions, p ≠ (y0, x0) → scanVal img p < v)
    (hne : ∀ p, q p = true → p ≠ (y0, x0)) :
    (scanPositions.filter q).foldl (fun m p => max m (scanVal img p)) 0 < v := by
  refine foldl_max_lt _ v _ 0 hv ?_
  intro p hp
  have hm := List.mem_filter.mp hp
  exact hdomlt p hm.1 (hne p hm.2)

lemma scanMax_eq_of_mem (v : Nat) (img : Nat → Nat) (q : Nat × Nat → Bool) (y0 x0 : Nat)
    (hmem : (y0, x0) ∈ scanPositions) (hq : q (y0, x0) = true)
    (hv : scanVal img (y0, x0) = v)
    (hdomle : ∀ p ∈ scanPositions, scanVal img p ≤ v) :
    (scanPositions.filter q).foldl (fun m p => max m (scanVal img p)) 0 = v := by
  refine foldl_max_eq _ v _ (y0, x0) (List.mem_filter.mpr ⟨hmem, hq⟩) hv ?_
  intro p hp
  exact hdomle p (List.mem_filter.mp hp).1

/-! ### Claim C1: quadrant maxima versus the image pixels -/

/-- The image-pixel positions as the spec words them: the 80×64 frame minus
the 2 header rows leaves 62 image rows (`(y, x)` with `y < 62`, `x < 80`). -/
def specImagePositions : List (Nat × Nat) :=
  (List.range 62).flatMap fun y =>
    (List.range 80).map fun x => (y, x)

/-- Spec-side rendering of claim C1's wording (for comparison with
`quadrant_Calculate`): per-quadrant running maxima initialized to 0 over
exactly the image pixels (the 2 header rows excluded), classifying each
pixel by `x < xSplit` versus `x ≥ xSplit` and `y < ySplit` versus
`y ≥ ySplit`. -/
def specImageQuadrantMax (frameData : Nat → Nat) (xsplit ysplit : Nat) :
    Nat × Nat × Nat × Nat :=
  ((specImagePositions.filter fun p => decide (p.2 < xsplit) && decide (p.1 < ysplit)).foldl
      (fun m p => max m (scanVal (imageAt frameData) p)) 0,
   (specImagePositions.filter fun p => decide (p.2 ≥ xsplit) && decide (p.1 < ysplit)).foldl
      (fun m p => max m (scanVal (imageAt frameData) p)) 0,
   (specImagePositions.filter fun p => decide (p.2 < xsplit) && decide (p.1 ≥ ysplit)).foldl
      (fun m p => max m (scanVal (imageAt frameData) p)) 0,
   (specImagePositions.filter fun p => decide (p.2 ≥ xsplit) && decide (p.1 ≥ ysplit)).foldl
      (fun m p => max m (scanVal (imageAt frameData) p)) 0)

lemma mem_specImagePositions {p : Nat × Nat} :
    p ∈ specImagePositions ↔ p.1 < 62 ∧ p.2 < 80 := by
  rcases p with ⟨y, x⟩
  constructor
  · intro h
    rcases List.mem_flatMap.mp h with ⟨a, ha, hmem⟩
    rcases List.mem_map.mp hmem with ⟨b, hb, heq⟩
    cases heq
    exact ⟨List.mem_range.mp ha, List.mem_range.mp hb⟩
  · rintro ⟨hy, hx⟩
    exact List.mem_flatMap.mpr ⟨y, List.mem_range.mpr hy,
      List.mem_map.mpr ⟨x, List.mem_range.mpr hx, rfl⟩⟩

/-- **C1.**  For every frame and every split configuration,
`quadrant_Calculate` computes each quadrant's max as a running maximum
initialized to 0 over exactly the image pixels: the scan positions (62 rows
starting after the 2 header rows) coincide with the image-pixel positions,
the four maxima equal the spec-side per-quadrant running maxima over the
image pixels, and for memory with a single maximal value at an image
position `(x0, y0)`, that value is reported as the max of exactly the
quadrant containing `(x0, y0)` — the other three maxima are strictly
smaller. -/
theorem quadrant_Calculate_singleMax (f : Nat → Nat) (st : QuadrantData) (y0 x0 : Nat)
    (hmem : (y0, x0) ∈ specImagePositions)
    (hdom : ∀ p ∈ specImagePositions, p ≠ (y0, x0) →
      scanVal (imageAt f) p < scanVal (imageAt f) (y0, x0)) :
    scanPositions = specImagePositions
    ∧ ((quadrant_Calculate f st).Amax, (quadrant_Calculate f st).Bmax,
       (quadrant_Calculate f st).Cmax, (quadrant_Calculate f st).Dmax)
      = specImageQuadrantMax f st.Xsplit st.Ysplit
    ∧ ((x0 < st.Xsplit ∧ y0 < st.Ysplit) →
      (quadrant_Calculate f st).Amax = scanVal (imageAt f) (y0, x0)
      ∧ (quadrant_Calculate f st).Bmax < scanVal (imageAt f) (y0, x0)
      ∧ (quadrant_Calculate f st).Cmax < scanVal (imageAt f) (y0, x0)
      ∧ (quadrant_Calculate f st).Dmax < scanVal (imageAt f) (y0, x0))
    ∧ ((st.Xsplit ≤ x0 ∧ y0 < st.Ysplit) →
      (quadrant_Calculate f st).Bmax = scanVal (imageAt f) (y0, x0)
      ∧ (quadrant_Calculate f st).Amax < scanVal (imageAt f) (y0, x0)
      ∧ (quadrant_Calculate f st).Cmax < scanVal (imageAt f) (y0, x0)
      ∧ (quadrant_Calculate f st).Dmax < scanVal (imageAt f) (y0, x0))
    ∧ ((x0 < st.Xsplit ∧ st.Ysplit ≤ y0) →
      (quadrant_Calculate f st).Cmax = scanVal (imageAt f) (y0, x0)
      ∧ (quadrant_Calculate f st).Amax < scanVal (imageAt f) (y0, x0)
      ∧ (quadrant_Calculate f st).Bmax < scanVal (imageAt f) (y0, x0)
      ∧ (quadrant_Calculate f st).Dmax < scanVal (imageAt f) (y0, x0))
    ∧ ((st.Xsplit ≤ x0 ∧ st.Ysplit ≤ y0) →
      (quadrant_Calculate f st).Dmax = scanVal (imageAt f) (y0, x0)
      ∧ (quadrant_Calculate f st).Amax < scanVal (imageAt f) (y0, x0)
      ∧ (quadrant_Calculate f st).Bmax < scanVal (imageAt f) (y0, x0)
      ∧ (quadrant_Calculate f st).Cmax < scanVal (imageAt f) (y0, x0)) := by
  have hsp : scanPositions = specImagePositions := rfl
  rw [← hsp] at hmem hdom
  refine ⟨rfl, ?_, ?_⟩
  · rw [quadrant_Calculate_Amax, quadrant_Calculate_Bmax, quadrant_Calculate_Cmax,
      quadrant_Calculate_Dmax, hsp]
    rfl
  have hv : 0 < scanVal (imageAt f) (y0, x0) := by
    rcases eq_or_ne (y0, x0) ((0 : Nat), (0 : Nat)) with h | h
    · have hq : ((0 : Nat), (1 : Nat)) ≠ (y0, x0) := by rw [h]; decide
      have hqm : ((0 : Nat), (1 : Nat)) ∈ scanPositions :=
        mem_scanPositions.mpr (by constructor <;> decide)
      exact Nat.lt_of_le_of_lt (Nat.zero_le _) (hdom _ hqm hq)
    · have hqm : ((0 : Nat), (0 : Nat)) ∈ scanPositions :=
        mem_scanPositions.mpr (by constructor <;> decide)
      exact Nat.lt_of_le_of_lt (Nat.zero_le _) (hdom _ hqm (Ne.symm h))
  have hle : ∀ p ∈ scanPositions, scanVal (imageAt f) p ≤ scanVal (imageAt f) (y0, x0) := by
    intro p hp
    rcases eq_or_ne p (y0, x0) with h | h
    · rw [h]
    · exact Nat.le_of_lt (hdom p hp h)
  refine ⟨fun hA => ?_, fun hB => ?_, fun hC => ?_, fun hD => ?_⟩
  · refine ⟨?_, ?_, ?_, ?_⟩
    · rw [quadrant_Calculate_Amax]
      exact scanMax_eq_of_mem _ _ _ y0 x0 hmem (by simp [hA.1, hA.2]) rfl hle
    · rw [quadrant_Calculate_Bmax]
      refine scanMax_lt_of_ne _ _ _ y0 x0 hv hdom ?_
      intro p hq he; subst he; simp at hq; omega
    · rw [quadrant_Calculate_Cmax]
      refine scanMax_lt_of_ne _ _ _ y0 x0 hv hdom ?_
      intro p hq he; subst he; simp at hq; omega
    · rw [quadrant_Calculate_Dmax]
      refine scanMax_lt_of_ne _ _ _ y0 x0 hv hdom ?_
      intro p hq he; subst he; simp at hq; omega
  · refine ⟨?_, ?_, ?_, ?_⟩
    · rw [quadrant_Calculate_Bmax]
      exact scanMax_eq_of_mem _ _ _ y0 x0 hmem (by simp [hB.1, hB.2]) rfl hle
    · rw [quadrant_Calculate_Amax]
      refine scanMax_lt_of_ne _ _ _ y0 x0 hv hdom ?_
      intro p hq he; subst he; simp at hq; omega
    · rw [quadrant_Calculate_Cmax]
      refine scanMax_lt_of_ne _ _ _ y0 x0 hv hdom ?_
      intro p hq he; subst he; simp at hq; omega
    · rw [quadrant_Calculate_Dmax]
      refine scanMax_lt_of_ne _ _ _ y0 x0 hv hdom ?_
      intro p hq he; subst he; simp at hq; omega
  · refine ⟨?_, ?_, ?_, ?_⟩
    · rw [quadrant_Calculate_Cmax]
      exact scanMax_eq_of_mem _ _ _ y0 x0 hmem (by simp [hC.1, hC.2]) rfl hle
    · rw [quadrant_Calculate_Amax]
      refine scanMax_lt_of_ne _ _ _ y0 x0 hv hdom ?_
      intro p hq he; subst he; simp at hq; omega
    · rw [quadrant_Calculate_Bmax]
      refine scanMax_lt_of_ne _ _ _ y0 x0 hv hdom ?_
      intro p hq he; subst he; simp at hq; omega
    · rw [quadrant_Calculate_Dmax]
      refine scanMax_lt_of_ne _ _ _ y0 x0 hv hdom ?_
      intro p hq he; subst he; simp at hq; omega
  · refine ⟨?_, ?_, ?_, ?_⟩
    · rw [quadrant_Calculate_Dmax]
      exact scanMax_eq_of_mem _ _ _ y0 x0 hmem (by simp [hD.1, hD.2]) rfl hle
    · rw [quadrant_Calculate_Amax]
      refine scanMax_lt_of_ne _ _ _ y0 x0 hv hdom ?_
      intro p hq he; subst he; simp at hq; omega
    · rw [quadrant_Calculate_Bmax]
      refine scanMax_lt_of_ne _ _ _ y0 x0 hv hdom ?_
      intro p hq he; subst he; simp at hq; omega
    · rw [quadrant_Calculate_Cmax]
      refine scanMax_lt_of_ne _ _ _ y0 x0 hv hdom ?_
      intro p hq he; subst he; simp at hq; omega

/-- C1 witness: with default splits (40, 31) and a single maximal value 7 at
scan position `(y, x) = (5, 10)` (frame word 570), quadrant A's max is
reported as 7. -/
theorem quadrant_Calculate_singleMax_witness :
    (quadrant_Calculate (fun i => if i = 570 then 7 else 0)
        (quadrant_Init fun _ => none)).Amax = 7 := by
  have h := quadrant_Calculate_singleMax (fun i => if i = 570 then 7 else 0)
    (quadrant_Init fun _ => none) 5 10
    (mem_specImagePositions.mpr (by constructor <;> decide))
    (by
      intro p hp hne
      have hm := mem_specImagePositions.mp hp
      have h1 : p.1 < 62 := hm.1
      have h2 : p.2 < 80 := hm.2
      have hne2 : ¬ (p.1 = 5 ∧ p.2 = 10) := by
        intro hvals
        apply hne
        rcases p with ⟨a, b⟩
        simp only at hvals
        rw [hvals.1, hvals.2]
      have hidx : 2 * 80 + (p.1 * 80 + p.2) ≠ 570 := by omega
      simp only [scanVal, imageAt, SENXOR_FRAME_WIDTH, if_neg hidx]
      decide)
  have hA := (h.2.2.1 (by constructor <;> decide)).1
  rw [hA]
  decide

/-! ### Claim C10: frame-buffer access bounds -/

lemma quadStep_foldl_congr (xs ys : Nat) (img1 img2 : Nat → Nat) :
    ∀ (l : List (Nat × Nat)) (acc : Nat × Nat × Nat × Nat),
      (∀ p ∈ l, img1 (p.1 * SENXOR_FRAME_WIDTH + p.2) = img2 (p.1 * SENXOR_FRAME_WIDTH + p.2)) →
      l.foldl (quadStep xs ys img1) acc = l.foldl (quadStep xs ys img2) acc := by
  intro l
  induction l with
  | nil => intros; rfl
  | cons p l ih =>
    intro acc h
    simp only [List.foldl_cons]
    rw [show quadStep xs ys img1 acc p = quadStep xs ys img2 acc p by
      simp only [quadStep, h p (List.mem_cons_self p l)]]
    exact ih _ (fun q hq => h q (List.mem_cons_of_mem p hq))

/-- `quadrant_Calculate` depends on the frame only through the word indices
listed in `quadrant_Calculate_readIndices`: the instrumentation is faithful
to the function's actual accesses. -/
lemma quadrant_Calculate_agree (f g : Nat → Nat) (st : QuadrantData)
    (h : ∀ i ∈ quadrant_Calculate_readIndices st, f i = g i) :
    quadrant_Calculate f st = quadrant_Calculate g st := by
  have hscan : ∀ p ∈ scanPositions,
      f (2 * SENXOR_FRAME_WIDTH + (p.1 * SENXOR_FRAME_WIDTH + p.2)) =
      g (2 * SENXOR_FRAME_WIDTH + (p.1 * SENXOR_FRAME_WIDTH + p.2)) := by
    intro p hp
    have : 2 * SENXOR_FRAME_WIDTH + p.1 * SENXOR_FRAME_WIDTH + p.2 ∈
        quadrant_Calculate_readIndices st := by
      simp only [quadrant_Calculate_readIndices]
      exact List.mem_append.mpr (Or.inl (List.mem_map.mpr ⟨p, hp, rfl⟩))
    have := h _ this
    simpa [Nat.add_assoc] using this
  have hpt : ∀ a b : Nat,
      (2 * SENXOR_FRAME_WIDTH + a * SENXOR_FRAME_WIDTH + b ∈
        quadrant_Calculate_readIndices st) →
      f (2 * SENXOR_FRAME_WIDTH + (a * SENXOR_FRAME_WIDTH + b)) =
      g (2 * SENXOR_FRAME_WIDTH + (a * SENXOR_FRAME_WIDTH + b)) := by
    intro a b hab
    have := h _ hab
    simpa [Nat.add_assoc] using this
  simp only [quadrant_Calculate]
  rw [quadStep_foldl_congr st.Xsplit st.Ysplit
    (fun i => f (2 * SENXOR_FRAME_WIDTH + i)) (fun i => g (2 * SENXOR_FRAME_WIDTH + i))
    scanPositions _ hscan]
  have hmem : ∀ i ∈ [2 * SENXOR_FRAME_WIDTH + quadAcy st.Ysplit * SENXOR_FRAME_WIDTH + quadAcx st.Xsplit,
        2 * SENXOR_FRAME_WIDTH + quadAcy st.Ysplit * SENXOR_FRAME_WIDTH + quadBcx st.Xsplit,
        2 * SENXOR_FRAME_WIDTH + quadCcy st.Ysplit * SENXOR_FRAME_WIDTH + quadAcx st.Xsplit,
        2 * SENXOR_FRAME_WIDTH + quadCcy st.Ysplit * SENXOR_FRAME_WIDTH + quadBcx st.Xsplit,
        2 * SENXOR_FRAME_WIDTH + st.Aburnery * SENXOR_FRAME_WIDTH + st.Aburnerx,
        2 * SENXOR_FRAME_WIDTH + st.Bburnery * SENXOR_FRAME_WIDTH + st.Bburnerx,
        2 * SENXOR_FRAME_WIDTH + st.Cburnery * SENXOR_FRAME_WIDTH + st.Cburnerx,
        2 * SENXOR_FRAME_WIDTH + st.Dburnery * SENXOR_FRAME_WIDTH + st.Dburnerx],
      i ∈ quadrant_Calculate_readIndices st := by
    intro i hi
    simp only [quadrant_Calculate_readIndices]
    exact List.mem_append.mpr (Or.inr hi)
  simp only [QuadrantData.mk.injEq]
  and_intros <;> first
    | trivial
    | (apply hpt
       apply hmem
       simp)

/-- **C10** (code bug, evaluated at the failing input).  `quadrant_Init`
loads the burner coordinates from the key-value store WITHOUT validation
(unlike the splits, and unlike `quadrant_WriteRegister`, which clamps), and
`quadrant_Calculate` reads the burner temperatures at the stored
coordinates unclamped.  For the state produced by `quadrant_Init` over a
store holding `aburnery = 255` (any stored byte ≥ 62 suffices), the burner
read index 2·80 + 255·80 + 20 = 20580 lies far outside the 80×64-word frame
buffer (words 0..5119): the claim that every frame-buffer access stays in
bounds for every state reachable through `quadrant_Init` is violated. -/
theorem quadrant_Calculate_reads_out_of_bounds :
    (2 * SENXOR_FRAME_WIDTH
        + (quadrant_Init (fun k => if k = "aburnery" then some 255 else none)).Aburnery
          * SENXOR_FRAME_WIDTH
        + (quadrant_Init (fun k => if k = "aburnery" then some 255 else none)).Aburnerx)
      ∈ quadrant_Calculate_readIndices
          (quadrant_Init (fun k => if k = "aburnery" then some 255 else none))
    ∧ ¬ (2 * SENXOR_FRAME_WIDTH
        + (quadrant_Init (fun k => if k = "aburnery" then some 255 else none)).Aburnery
          * SENXOR_FRAME_WIDTH
        + (quadrant_Init (fun k => if k = "aburnery" then some 255 else none)).Aburnerx
        < 80 * 64) := by
  constructor
  · simp only [quadrant_Calculate_readIndices]
    refine List.mem_append.mpr (Or.inr ?_)
    exact List.mem_cons_of_mem _ (List.mem_cons_of_mem _ (List.mem_cons_of_mem _
      (List.mem_cons_of_mem _ (List.mem_cons_self _ _))))
  · decide

/-! ## Packet codec (cmdParser.c) -/

/-- `CP_START_CHAR` = `'#'`. -/
def CP_START_CHAR : Nat := 35

/-- `CP_CMD_FIELD_LEN` (cmdParser.h). -/
def CP_CMD_FIELD_LEN : Nat := 5

/-- `CP_DLEN_FIELD_LEN` (cmdParser.h). -/
def CP_DLEN_FIELD_LEN : Nat := 5

/-- `CP_CRC_FIELD_LEN` (cmdParser.h). -/
def CP_CRC_FIELD_LEN : Nat := 5

/-- `CP_DATA_FIELD_LEN` (cmdParser.h). -/
def CP_DATA_FIELD_LEN : Nat := 512

/-- `cmdParserState` (cmdParser.h); the `RST` member is never entered. -/
inductive CmdParserState
  | START_CHAR
  | LEN
  | DATA
  | CRC
  deriving Repr, DecidableEq

/-- `cmdPhaser` (cmdParser.h): the parser state machine's persistent object.
The four fixed-size byte buffers are modelled as total functions. -/
structure CmdPhaser where
  mCmdParserState : CmdParserState
  mCmdLen : Nat → Nat
  mCmd : Nat → Nat
  mData : Nat → Nat
  mCRC : Nat → Nat

/-- A single byte store `buf[i] = v`. -/
def bufWrite (buf : Nat → Nat) (i v : Nat) : Nat → Nat :=
  fun j => if j = i then v else buf j

/-- `cmdParser_Init` (cmdParser.c): reset the state to `START_CHAR` and zero
all four buffers (the argument is erased entirely). -/
def cmdParser_Init (_pCmdPhaser : CmdPhaser) : CmdPhaser :=
  { mCmdParserState := .START_CHAR
    mCmdLen := fun _ => 0
    mCmd := fun _ => 0
    mData := fun _ => 0
    mCRC := fun _ => 0 }

/-- C-string readout of a fixed-size buffer: its bytes up to the first NUL. -/
def cstr (buf : Nat → Nat) (size : Nat) : List Nat :=
  ((List.range size).map buf).takeWhile (fun b => b != 0)

/-- One hexadecimal digit for `strtoul(s, 0, 16)` (which accepts both
cases). -/
def strtoulHexDigit (c : Nat) : Option Nat :=
  if 48 ≤ c ∧ c ≤ 57 then some (c - 48)
  else if 65 ≤ c ∧ c ≤ 70 then some (c - 65 + 10)
  else if 97 ≤ c ∧ c ≤ 102 then some (c - 97 + 10)
  else none

/-- `strtoul(s, 0, 16)` on the C-strings arising in this protocol: parse the
longest hexadecimal-digit prefix (the library function also skips leading
white space and an optional sign or `0x` prefix, which never occur in these
fields). -/
def strtoulHex : List Nat → Nat → Nat
  | [], acc => acc
  | c :: rest, acc =>
    match strtoulHexDigit c with
    | some v => strtoulHex rest (acc * 16 + v)
    | none => acc

/-- The `LENGTH_PARSE_ERROR` sentinel. -/
def LENGTH_PARSE_ERROR : Int := -1

/-- `getHexValue` (cmdParser.c): upper-case-only hexadecimal digit value, or
`LENGTH_PARSE_ERROR`. -/
def getHexValue (c : Nat) : Int :=
  if 48 ≤ c ∧ c ≤ 57 then (c : Int) - 48
  else if 65 ≤ c ∧ c ≤ 70 then (c : Int) - 65 + 10
  else LENGTH_PARSE_ERROR

/-- `toHex` (cmdParser.c): positional hexadecimal interpretation of a
C-string via `getHexValue`, aborting with `LENGTH_PARSE_ERROR` on the first
invalid character. -/
def toHex : List Nat → Int
  | [] => 0
  | c :: rest =>
    if getHexValue c = LENGTH_PARSE_ERROR then LENGTH_PARSE_ERROR
    else
      let r := toHex rest
      if r = LENGTH_PARSE_ERROR then LENGTH_PARSE_ERROR
      else getHexValue c * (16 : Int) ^ rest.length + r

/-- The per-call loop of `cmdParser_PharseCmd` (cmdParser.c): the state
machine over the input bytes with the call-local cursor `tCmdPtr`, checksum
`tInputChksum` and parsed length `tCmdLen` (all `uint32_t`, starting at 0 on
every call).  Returns the updated phaser and the function's return value
(`0` or `-1`); a `return` inside the CRC stage stops consuming input. -/
def pharseLoop : List Nat → CmdPhaser → Nat → Nat → Nat → CmdPhaser × Int
  | [], ph, _, _, _ => (ph, 0)
  | b :: rest, ph, tCmdPtr, tInputChksum, tCmdLen =>
    match ph.mCmdParserState with
    | .START_CHAR =>
      if b = CP_START_CHAR then
        pharseLoop rest { ph with mCmdParserState := .LEN } tCmdPtr tInputChksum tCmdLen
      else
        pharseLoop rest ph tCmdPtr tInputChksum tCmdLen
    | .LEN =>
      let ph := { ph with mCmdLen := bufWrite ph.mCmdLen tCmdPtr b }
      let tCmdPtr := tCmdPtr + 1
      let tInputChksum := tInputChksum + b
      if tCmdPtr = CP_CMD_FIELD_LEN - 1 then
        let tCmdLen := strtoulHex (cstr ph.mCmdLen CP_DLEN_FIELD_LEN) 0
        let (ph, tCmdPtr) :=
          if tCmdLen > 7 then ({ ph with mCmdParserState := .DATA }, 0)
          else (ph, tCmdPtr)
        let (ph, tCmdPtr) :=
          if tCmdLen < 8 ∨ tCmdLen = 4294967295 then
            ({ ph with mCmdParserState := .START_CHAR }, 0)
          else (ph, tCmdPtr)
        pharseLoop rest ph tCmdPtr tInputChksum tCmdLen
      else
        pharseLoop rest ph tCmdPtr tInputChksum tCmdLen
    | .DATA =>
      let tInputChksum := tInputChksum + b
      let (ph, tCmdPtr) :=
        if tCmdPtr < CP_CMD_FIELD_LEN - 1 then
          ({ ph with mCmd := bufWrite ph.mCmd tCmdPtr b }, tCmdPtr + 1)
        else
          ({ ph with mData := bufWrite ph.mData (tCmdPtr - (CP_CMD_FIELD_LEN - 1)) b },
            tCmdPtr + 1)
      if tCmdPtr = (tCmdLen + 4294967296 - 4) % 4294967296
          ∨ tCmdPtr = CP_CMD_FIELD_LEN + CP_DATA_FIELD_LEN then
        pharseLoop rest { ph with mCmdParserState := .CRC } 0 tInputChksum tCmdLen
      else
        pharseLoop rest ph tCmdPtr tInputChksum tCmdLen
    | .CRC =>
      let ph := { ph with mCRC := bufWrite ph.mCRC tCmdPtr b }
      let tCmdPtr := tCmdPtr + 1
      if tCmdPtr = CP_CRC_FIELD_LEN - 1 then
        let tCalChksum := strtoulHex (cstr ph.mCRC CP_CRC_FIELD_LEN) 0
        if ph.mCRC 0 = 88 ∧ ph.mCRC 1 = 88 ∧ ph.mCRC 2 = 88 ∧ ph.mCRC 3 = 88 then
          (ph, 0)
        else if tInputChksum = tCalChksum then
          (ph, 0)
        else
          (ph, -1)
      else
        pharseLoop rest ph tCmdPtr tInputChksum tCmdLen

/-- `cmdParser_PharseCmd` (cmdParser.c): null checks do not arise in the
model; the input size is capped at the sum of the four field capacities
(527); then the state-machine loop runs with fresh call-local variables. -/
def cmdParser_PharseCmd (ph : CmdPhaser) (input : List Nat) : CmdPhaser × Int :=
  pharseLoop
    (input.take (CP_CMD_FIELD_LEN + CP_DLEN_FIELD_LEN + CP_DATA_FIELD_LEN + CP_CRC_FIELD_LEN))
    ph 0 0 0

/-! ## Register map (senxorTask.c) and command execution (cmdParser.c) -/

/-- `REG_XSPLIT` (senxorTask.h). -/
def REG_XSPLIT : Nat := 0xC0

/-- `REG_YSPLIT`. -/
def REG_YSPLIT : Nat := 0xC1

/-- `REG_DBURNERT`, the last quadrant/burner register. -/
def REG_DBURNERT : Nat := 0xD5

/-- `quadrant_ReadRegister` (senxorTask.c): the switch over the quadrant,
burner and device-ID register addresses; unknown addresses read 0.
`mDeviceId` is the module-level 6-byte BT MAC loaded by `quadrant_Init`. -/
def quadrant_ReadRegister (st : QuadrantData) (mDeviceId : Nat → Nat) (regAddr : Nat) : Nat :=
  if regAddr = 0xC0 then st.Xsplit
  else if regAddr = 0xC1 then st.Ysplit
  else if regAddr = 0xC2 then st.Amax
  else if regAddr = 0xC3 then st.Acenter
  else if regAddr = 0xC4 then st.Bmax
  else if regAddr = 0xC5 then st.Bcenter
  else if regAddr = 0xC6 then st.Cmax
  else if regAddr = 0xC7 then st.Ccenter
  else if regAddr = 0xC8 then st.Dmax
  else if regAddr = 0xC9 then st.Dcenter
  else if regAddr = 0xCA then st.Aburnerx
  else if regAddr = 0xCB then st.Aburnery
  else if regAddr = 0xCC then st.Aburnert
  else if regAddr = 0xCD then st.Bburnerx
  else if regAddr = 0xCE then st.Bburnery
  else if regAddr = 0xCF then st.Bburnert
  else if regAddr = 0xD0 then st.Cburnerx
  else if regAddr = 0xD1 then st.Cburnery
  else if regAddr = 0xD2 then st.Cburnert
  else if regAddr = 0xD3 then st.Dburnerx
  else if regAddr = 0xD4 then st.Dburnery
  else if regAddr = 0xD5 then st.Dburnert
  else if regAddr = 0xE0 then mDeviceId 0
  else if regAddr = 0xE1 then mDeviceId 1
  else if regAddr = 0xE2 then mDeviceId 2
  else if regAddr = 0xE3 then mDeviceId 3
  else if regAddr = 0xE4 then mDeviceId 4
  else if regAddr = 0xE5 then mDeviceId 5
  else 0

/-- `quadrant_WriteRegister` (senxorTask.c): split writes are range-checked
and otherwise ignored; burner coordinates are clamped into the owning
quadrant's rectangle computed from the current splits; all other addresses
are read-only and ignored.  (Each accepted store is also persisted through
`NVS_WriteU8` with the same clamped value; the key-value store itself is not
part of this state.) -/
def quadrant_WriteRegister (st : QuadrantData) (regAddr value : Nat) : QuadrantData :=
  let xsplit := st.Xsplit
  let ysplit := st.Ysplit
  if regAddr = 0xC0 then
    if value ≤ SENXOR_FRAME_WIDTH then { st with Xsplit := value } else st
  else if regAddr = 0xC1 then
    if value ≤ SENXOR_FRAME_HEIGHT then { st with Ysplit := value } else st
  else if regAddr = 0xCA then
    let value := if value ≥ xsplit then (if xsplit > 0 then xsplit - 1 else 0) else value
    { st with Aburnerx := value }
  else if regAddr = 0xCB then
    let value := if value ≥ ysplit then (if ysplit > 0 then ysplit - 1 else 0) else value
    { st with Aburnery := value }
  else if regAddr = 0xCD then
    let value := if value < xsplit then xsplit else value
    let value := if value ≥ SENXOR_FRAME_WIDTH then SENXOR_FRAME_WIDTH - 1 else value
    { st with Bburnerx := value }
  else if regAddr = 0xCE then
    let value := if value ≥ ysplit then (if ysplit > 0 then ysplit - 1 else 0) else value
    { st with Bburnery := value }
  else if regAddr = 0xD0 then
    let value := if value ≥ xsplit then (if xsplit > 0 then xsplit - 1 else 0) else value
    { st with Cburnerx := value }
  else if regAddr = 0xD1 then
    let value := if value < ysplit then ysplit else value
    let value := if value ≥ SENXOR_FRAME_HEIGHT then SENXOR_FRAME_HEIGHT - 1 else value
    { st with Cburnery := value }
  else if regAddr = 0xD3 then
    let value := if value < xsplit then xsplit else value
    let value := if value ≥ SENXOR_FRAME_WIDTH then SENXOR_FRAME_WIDTH - 1 else value
    { st with Dburnerx := value }
  else if regAddr = 0xD4 then
    let value := if value < ysplit then ysplit else value
    let value := if value ≥ SENXOR_FRAME_HEIGHT then SENXOR_FRAME_HEIGHT - 1 else value
    { st with Dburnery := value }
  else st

/-- `isQuadrantRegister` (cmdParser.c): `addr` between `REG_XSPLIT` (0xC0)
and `REG_DBURNERT` (0xD5), on the `int` produced by `toHex`. -/
def isQuadrantRegister (addr : Int) : Bool :=
  decide ((REG_XSPLIT : Int) ≤ addr) && decide (addr ≤ (REG_DBURNERT : Int))

/-- `CMD_WREG` as bytes. -/
def CMD_WREG : List Nat := [87, 82, 69, 71]

/-- `CMD_RREG` as bytes. -/
def CMD_RREG : List Nat := [82, 82, 69, 71]

/-- `CMD_RRSE` as bytes. -/
def CMD_RRSE : List Nat := [82, 82, 83, 69]

/-- `CMD_POLL` as bytes. -/
def CMD_POLL : List Nat := [80, 79, 76, 76]

/-- `hexDigit n` is the upper-case hexadecimal digit character for
`n < 16`, as printed by `sprintf("%X")`. -/
def hexDigit (n : Nat) : Nat :=
  if n < 10 then 48 + n else 55 + n

/-- `sprintf("%02X", v)` for `v < 256`. -/
def hex2 (n : Nat) : List Nat :=
  [hexDigit (n / 16 % 16), hexDigit (n % 16)]

/-- `sprintf("%04X", v)` for `v < 65536`. -/
def hex4 (n : Nat) : List Nat :=
  [hexDigit (n / 4096 % 16), hexDigit (n / 256 % 16), hexDigit (n / 16 % 16), hexDigit (n % 16)]

/-- The hexadecimal digits of `n` with no leading zeros (empty for 0). -/
def hexDigitsNoPad : Nat → List Nat
  | 0 => []
  | n + 1 => hexDigitsNoPad ((n + 1) / 16) ++ [hexDigit ((n + 1) % 16)]

/-- `sprintf("%02X", v)` on an `int` argument: `%X` formats the value as an
`unsigned int` (wrap at 2^32), minimum width 2, no padding beyond that. -/
def sprintf02X (v : Int) : List Nat :=
  let u := (v % 4294967296).toNat
  if u < 256 then hex2 u
  else hexDigitsNoPad u

/-- Modelled from the spec: `getCRC` (declared in util.h; its implementation
is not under src/) — §4.1 `computeCrc`: "a running additive checksum (sum of
byte values)" over the given span, returned as a `uint16`. -/
def getCRC (bytes : List Nat) : Nat :=
  (bytes.foldl (· + ·) 0) % 65536

/-- The collaborators visible to `cmdParser_CommitCmd`: the frame-channel
connection flag (`tcpServerGetIsClientConnected`), the quadrant state
(`mQuadrantData`), the device-ID bytes (`mDeviceId`), and the external
sensor register file and firmware-version provider. -/
structure CmdEnv where
  tcpIsClientConnected : Bool
  quadrant : QuadrantData
  mDeviceId : Nat → Nat
  accesRegs : Int → Nat
  appVersion : Int → Nat

/-- The side effects of one `cmdParser_CommitCmd` call: the quadrant state
after any `quadrant_WriteRegister`, the `Acces_Write_Reg` calls issued to
the external sensor driver, and the argument of any `cmdServerSetPollFreqHz`
call. -/
structure CmdEffects where
  quadrant : QuadrantData
  accesWrites : List (Int × Int)
  pollFreqSet : Option Nat
  deriving Repr, DecidableEq

/-- Sequential byte stores `buf[pos..] = bytes` (each `sprintf`/assignment
run of `cmdParser_CommitCmd`). -/
def bufWriteList : (Nat → Nat) → Nat → List Nat → Nat → Nat
  | buf, _, [] => buf
  | buf, pos, b :: rest => bufWriteList (bufWrite buf pos b) (pos + 1) rest

/-- `cmdParser_CommitCmd` (cmdParser.c).  `pAckBuff` is the ACK buffer's
prior contents (a static buffer in the servers); each `sprintf` writes its
characters plus a terminating NUL.  Returns the bytes the caller will send
(the buffer's first `return`-value bytes, the return type being `uint8_t`)
and the side effects. -/
def cmdParser_CommitCmd (ph : CmdPhaser) (env : CmdEnv) (pAckBuff : Nat → Nat) :
    List Nat × CmdEffects :=
  let tCmdLenInt := strtoulHex (cstr ph.mCmdLen CP_DLEN_FIELD_LEN) 0
  let noEffects : CmdEffects := ⟨env.quadrant, [], none⟩
  if cstr ph.mCmd CP_CMD_FIELD_LEN = CMD_WREG then
    let tAddr := [ph.mData 0, ph.mData 1].takeWhile (fun b => b != 0)
    let tVal := [ph.mData 2, ph.mData 3].takeWhile (fun b => b != 0)
    let tAddrInt := toHex tAddr
    let tValInt := toHex tVal
    let eff : CmdEffects :=
      if isQuadrantRegister tAddrInt then
        ⟨quadrant_WriteRegister env.quadrant ((tAddrInt % 256).toNat) ((tValInt % 256).toNat),
          [], none⟩
      else
        ⟨env.quadrant, [(tAddrInt, tValInt)], none⟩
    let buf := bufWriteList pAckBuff 0 ([32, 32, 32, 35, 48, 48, 48, 56] ++ CMD_WREG)
    let buf := bufWriteList buf 12 (hex4 (getCRC ((List.range 8).map fun k => buf (4 + k))) ++ [0])
    let buf := bufWrite buf 17 0
    ((List.range 17).map buf, eff)
  else if cstr ph.mCmd CP_CMD_FIELD_LEN = CMD_RREG then
    let tAddr := [ph.mData 0, ph.mData 1].takeWhile (fun b => b != 0)
    let tAddrInt := toHex tAddr
    if isQuadrantRegister tAddrInt then
      let rd16 := quadrant_ReadRegister env.quadrant env.mDeviceId ((tAddrInt % 256).toNat) % 65536
      let buf := bufWriteList pAckBuff 0 ([32, 32, 32, 35, 48, 48, 48, 67] ++ CMD_RREG)
      let buf := bufWriteList buf 12 (hex4 rd16 ++ [0])
      let buf := bufWriteList buf 16 (hex4 (getCRC ((List.range 12).map fun k => buf (4 + k))) ++ [0])
      let buf := bufWrite buf 20 0
      ((List.range 21).map buf, noEffects)
    else
      let rd := (if tAddrInt = 0xB2 ∨ tAddrInt = 0xB3 then env.appVersion tAddrInt
                 else env.accesRegs tAddrInt) % 256
      let buf := bufWriteList pAckBuff 0 ([32, 32, 32, 35, 48, 48, 48, 65] ++ CMD_RREG)
      let buf := bufWriteList buf 12 (hex2 rd ++ [0])
      let buf := bufWriteList buf 14 (hex4 (getCRC ((List.range 10).map fun k => buf (4 + k))) ++ [0])
      let buf := bufWrite buf 18 0
      ((List.range 19).map buf, noEffects)
  else if cstr ph.mCmd CP_CMD_FIELD_LEN = CMD_RRSE then
    let tRegCntX2 := ((((tCmdLenInt : Int) - 8) - 2) % 65536).toNat
    let offsets := (List.range ((tRegCntX2 + 1) / 2)).map fun k => 2 * k
    let addrInts := offsets.map fun i =>
      toHex ([ph.mData i, ph.mData (i + 1)].takeWhile (fun b => b != 0))
    let tAckLen := addrInts.foldl
      (fun acc a => (acc + if isQuadrantRegister a then 6 else 4) % 65536) 8
    let buf := bufWriteList pAckBuff 0 [32, 32, 32, 35]
    let buf := bufWriteList buf 4 (hex4 tAckLen ++ [0])
    let buf := bufWriteList buf 8 CMD_RRSE
    let bj := addrInts.foldl
      (fun (acc : (Nat → Nat) × Nat) a =>
        let buf := bufWriteList acc.1 acc.2 (sprintf02X a ++ [0])
        let j := acc.2 + 2
        if isQuadrantRegister a then
          (bufWriteList buf j
            (hex4 (quadrant_ReadRegister env.quadrant env.mDeviceId ((a % 256).toNat) % 65536)
              ++ [0]), j + 4)
        else if a = 0xB2 ∨ a = 0xB3 then
          (bufWriteList buf j (hex2 (env.appVersion a % 256) ++ [0]), j + 2)
        else
          (bufWriteList buf j (hex2 (env.accesRegs a % 256) ++ [0]), j + 2))
      (buf, 12)
    let buf := bufWriteList bj.1 bj.2
      (hex4 (getCRC ((List.range tAckLen).map fun k => bj.1 (4 + k))) ++ [0])
    ((List.range ((tAckLen + 8) % 256)).map buf, noEffects)
  else if cstr ph.mCmd CP_CMD_FIELD_LEN = CMD_POLL then
    if env.tcpIsClientConnected then
      ([], noEffects)
    else
      let tVal := [ph.mData 0, ph.mData 1].takeWhile (fun b => b != 0)
      let tValInt := toHex tVal
      if tValInt < 0 then
        ([], noEffects)
      else
        let buf := bufWriteList pAckBuff 0 ([32, 32, 32, 35, 48, 48, 48, 56] ++ CMD_POLL)
        let buf := bufWriteList buf 12 (hex4 (getCRC ((List.range 8).map fun k => buf (4 + k))) ++ [0])
        let buf := bufWrite buf 16 0
        ((List.range 17).map buf, ⟨env.quadrant, [], some ((tValInt % 256).toNat)⟩)
  else
    ([], noEffects)

/-! ## Command server (cmdServerTask.c), frame server signals
(tcpServerTask.c), capture gate (senxorTask.c) -/

/-- `POLL_MAX_FREQ_HZ` (cmdServerTask.h). -/
def POLL_MAX_FREQ_HZ : Nat := 25

/-- `cmdServerSetPollFreqHz` (cmdServerTask.c): cap the frequency at
`POLL_MAX_FREQ_HZ` and store it. -/
def cmdServerSetPollFreqHz (freqHz : Nat) : Nat :=
  if freqHz > POLL_MAX_FREQ_HZ then POLL_MAX_FREQ_HZ else freqHz

/-- The command server's mutable state (cmdServerTask.c): the
client-connected flag, the poll-frequency signal, the parser object and the
static ACK buffer. -/
structure CmdServerState where
  isClientConnected : Bool
  pollFreqHz : Nat
  phaser : CmdPhaser
  mAckBuff : Nat → Nat

/-- Apply a `cmdParser_CommitCmd` poll effect through
`cmdServerSetPollFreqHz`. -/
def applyPollEffect (pollFreqHz : Nat) (eff : CmdEffects) : Nat :=
  match eff.pollFreqSet with
  | some v => cmdServerSetPollFreqHz v
  | none => pollFreqHz

/-- `cmdServerReceive` (cmdServerTask.c), successful-read path (`len > 0`):
parse the received bytes (the parse result is discarded), commit the
command, send the ACK when its size is positive, then reinitialize the
parser object.  Returns the new state, the bytes sent on the command
channel, and the commit effects. -/
def cmdServerReceive (env : CmdEnv) (st : CmdServerState) (input : List Nat) :
    CmdServerState × List Nat × CmdEffects :=
  let pr := cmdParser_PharseCmd st.phaser input
  let ae := cmdParser_CommitCmd pr.1 env st.mAckBuff
  let sent := if ae.1.length > 0 then ae.1 else []
  ({ isClientConnected := st.isClientConnected
     pollFreqHz := applyPollEffect st.pollFreqHz ae.2
     phaser := cmdParser_Init pr.1
     mAckBuff := bufWriteList st.mAckBuff 0 ae.1 }, sent, ae.2)

/-- `cmdServerReceive` (cmdServerTask.c), failed-read or orderly-close path
(`len < 0` or `len = 0`): mark the client disconnected and reset the poll
frequency to 0; nothing is parsed or sent. -/
def cmdServerReceiveDisconnect (st : CmdServerState) : CmdServerState :=
  { st with isClientConnected := false, pollFreqHz := 0 }

/-- The consumer signals shared between the frame server (tcpServerTask.c),
the command server (cmdServerTask.c) and the sensor capture register 0xB1
(external, written through `Acces_Write_Reg`). -/
structure SignalState where
  tcpIsClientConnected : Bool
  cmdIsClientConnected : Bool
  pollFreqHz : Nat
  regB1 : Nat
  deriving Repr, DecidableEq

/-- `tcpServerSend` write-failure path (tcpServerTask.c): clear the
frame-channel connected flag and stop capture (`Acces_Write_Reg(0xB1, 0)` in
every `errno` case); the poll frequency is not touched. -/
def tcpServerSendFail (s : SignalState) : SignalState :=
  { s with tcpIsClientConnected := false, regB1 := 0 }

/-- `tcpServerRestart` accept-success path (tcpServerTask.c): set the
frame-channel connected flag and start capture (`Acces_Write_Reg(0xB1,
0x03)`). -/
def tcpServerAcceptClient (s : SignalState) : SignalState :=
  { s with tcpIsClientConnected := true, regB1 := 3 }

/-- Command-channel disconnect at signal level (`cmdServerReceive` with
`len ≤ 0`, or `cmdServerSend` write failure): clear the command-channel flag
and reset the poll frequency to 0. -/
def cmdServerDisconnectSignals (s : SignalState) : SignalState :=
  { s with cmdIsClientConnected := false, pollFreqHz := 0 }

/-- The POLL command at signal level (cmdParser.c POLL branch feeding
`cmdServerSetPollFreqHz`): rejected outright when the frame channel is
connected, otherwise the capped frequency is stored. -/
def pollCommandSignals (s : SignalState) (freq : Nat) : SignalState :=
  if s.tcpIsClientConnected then s
  else { s with pollFreqHz := cmdServerSetPollFreqHz freq }

/-- The Mode-2 (polling/BLE) acquisition gate of `senxorTask`
(senxorTask.c): effective frequency (`pollFreq` if positive, else 25 for
BLE-only), the per-cycle delay `1000 / effectiveFreq` ms, and the gate
condition, which the source writes as
`1 || (currentTime - lastPollTime) >= pdMS_TO_TICKS(pollDelayMs)`.
`pdMS_TO_TICKS` (FreeRTOS) is a parameter; times are tick counts, and
`currentTime - lastPollTime` is unsigned (truncated) subtraction. -/
def senxorPollGate (pdMsToTicks : Nat → Nat) (pollFreq : Nat)
    (currentTime lastPollTime : Nat) : Bool :=
  let effectiveFreq := if pollFreq > 0 then pollFreq else 25
  let pollDelayMs := 1000 / effectiveFreq
  ((1 : Nat) != 0) || decide (currentTime - lastPollTime ≥ pdMsToTicks pollDelayMs)

/-- The senxorTask main-loop mode-2 guard (senxorTask.c): the frame port is
disconnected and (the command port is connected with a positive poll
frequency, or BLE clients exist). -/
def senxorPollingModeActive (framePortConnected cmdPortConnected : Bool)
    (pollFreq : Nat) (bleConnected : Bool) : Bool :=
  !framePortConnected && ((cmdPortConnected && decide (pollFreq > 0)) || bleConnected)

/-- One Mode-2 iteration's acquisition decision: the polling branch is
active and the rate gate passes. -/
def senxorPollingAcquiresFrame (pdMsToTicks : Nat → Nat)
    (framePortConnected cmdPortConnected : Bool) (pollFreq : Nat) (bleConnected : Bool)
    (currentTime lastPollTime : Nat) : Bool :=
  senxorPollingModeActive framePortConnected cmdPortConnected pollFreq bleConnected
    && senxorPollGate pdMsToTicks pollFreq currentTime lastPollTime

/-! ## Client-side packet construction (server.js) -/

/-- `buildPacket` (server.js): `"   #" + length(4 upper-case hex digits,
zero-padded) + command + data + "XXXX"` with
`length = command.length + data.length + 4`. -/
def buildPacket (command data : List Nat) : List Nat :=
  [32, 32, 32, 35] ++ hex4 (command.length + data.length + 4) ++ command ++ data
    ++ [88, 88, 88, 88]

/-! ### Hexadecimal rendering/parsing inversion -/

lemma hexDigit_ge (n : Nat) : 48 ≤ hexDigit n := by
  unfold hexDigit; split <;> omega

lemma hexDigit_ne_zero (n : Nat) : hexDigit n ≠ 0 := by
  have := hexDigit_ge n; omega

lemma hexDigit_ne_hash (n : Nat) : hexDigit n ≠ 35 := by
  have := hexDigit_ge n; omega

lemma strtoulHexDigit_hexDigit (n : Nat) (h : n < 16) :
    strtoulHexDigit (hexDigit n) = some n := by
  rcases Nat.lt_or_ge n 10 with h10 | h10
  · simp only [hexDigit, if_pos h10, strtoulHexDigit]
    rw [if_pos (by omega)]
    congr 1
    omega
  · simp only [hexDigit, if_neg (show ¬ n < 10 by omega), strtoulHexDigit]
    rw [if_neg (by omega), if_pos (by omega)]
    congr 1
    omega

lemma strtoulHex_hex4 (n : Nat) (h : n < 65536) : strtoulHex (hex4 n) 0 = n := by
  have h1 : n / 4096 % 16 < 16 := Nat.mod_lt _ (by omega)
  have h2 : n / 256 % 16 < 16 := Nat.mod_lt _ (by omega)
  have h3 : n / 16 % 16 < 16 := Nat.mod_lt _ (by omega)
  have h4 : n % 16 < 16 := Nat.mod_lt _ (by omega)
  simp only [hex4, strtoulHex, strtoulHexDigit_hexDigit _ h1, strtoulHexDigit_hexDigit _ h2,
    strtoulHexDigit_hexDigit _ h3, strtoulHexDigit_hexDigit _ h4]
  omega

/-! ### C-string readout lemmas -/

lemma cstr_write4 (a b c d : Nat) (ha : a ≠ 0) (hb : b ≠ 0) (hc : c ≠ 0) (hd : d ≠ 0) :
    cstr (bufWriteList (fun _ => 0) 0 [a, b, c, d]) 5 = [a, b, c, d] := by
  have h5 : (List.range 5).map (bufWriteList (fun _ => 0) 0 [a, b, c, d]) = [a, b, c, d, 0] := by
    simp [bufWriteList, bufWrite, List.range_succ]
  unfold cstr
  rw [h5]
  simp [List.takeWhile_cons, ha, hb, hc, hd]

lemma takeWhile_length_le_of_get_zero :
    ∀ (l : List Nat) (j : Nat) (hj : j < l.length), l.get ⟨j, hj⟩ = 0 →
      (l.takeWhile (fun b => b != 0)).length ≤ j := by
  intro l
  induction l with
  | nil => intro j hj; simp at hj
  | cons b t ih =>
    intro j hj hz
    cases j with
    | zero =>
      simp only [List.get] at hz
      subst hz
      simp
    | succ j =>
      by_cases hb : b = 0
      · subst hb; simp
      · have ht := ih j (by simpa using hj) (by simpa using hz)
        simp only [List.takeWhile_cons]
        rw [if_pos (by simp [hb] : ((b != 0) = true))]
        simp only [List.length_cons]
        omega

/-! ### Single-step lemmas for the parse state machine -/

lemma pharseLoop_nil (ph : CmdPhaser) (ptr chk len : Nat) :
    pharseLoop [] ph ptr chk len = (ph, 0) := rfl

lemma pharseLoop_skip (b : Nat) (hb : b ≠ 35) (rest : List Nat)
    (cl cm da cr : Nat → Nat) (ptr chk len : Nat) :
    pharseLoop (b :: rest) ⟨.START_CHAR, cl, cm, da, cr⟩ ptr chk len
      = pharseLoop rest ⟨.START_CHAR, cl, cm, da, cr⟩ ptr chk len := by
  simp [pharseLoop, CP_START_CHAR, hb]

lemma pharseLoop_marker (rest : List Nat) (cl cm da cr : Nat → Nat) (ptr chk len : Nat) :
    pharseLoop (35 :: rest) ⟨.START_CHAR, cl, cm, da, cr⟩ ptr chk len
      = pharseLoop rest ⟨.LEN, cl, cm, da, cr⟩ ptr chk len := by
  simp [pharseLoop, CP_START_CHAR]

lemma pharseLoop_len_step (b : Nat) (rest : List Nat) (cl cm da cr : Nat → Nat)
    (ptr chk len : Nat) (h : ptr + 1 ≠ 4) :
    pharseLoop (b :: rest) ⟨.LEN, cl, cm, da, cr⟩ ptr chk len
      = pharseLoop rest ⟨.LEN, bufWrite cl ptr b, cm, da, cr⟩ (ptr + 1) (chk + b) len := by
  simp [pharseLoop, CP_CMD_FIELD_LEN, h]

lemma pharseLoop_len_final_valid (b : Nat) (rest : List Nat) (cl cm da cr : Nat → Nat)
    (chk len : Nat)
    (h8 : 8 ≤ strtoulHex (cstr (bufWrite cl 3 b) 5) 0)
    (hlt : strtoulHex (cstr (bufWrite cl 3 b) 5) 0 < 4294967295) :
    pharseLoop (b :: rest) ⟨.LEN, cl, cm, da, cr⟩ 3 chk len
      = pharseLoop rest ⟨.DATA, bufWrite cl 3 b, cm, da, cr⟩ 0 (chk + b)
          (strtoulHex (cstr (bufWrite cl 3 b) 5) 0) := by
  have h7 : strtoulHex (cstr (bufWrite cl 3 b) 5) 0 > 7 := by omega
  have hno : ¬ (strtoulHex (cstr (bufWrite cl 3 b) 5) 0 < 8
      ∨ strtoulHex (cstr (bufWrite cl 3 b) 5) 0 = 4294967295) := by omega
  simp [pharseLoop, CP_CMD_FIELD_LEN, CP_DLEN_FIELD_LEN, h7, hno]

lemma pharseLoop_data_cmd_step (b : Nat) (rest : List Nat) (cl cm da cr : Nat → Nat)
    (ptr chk L : Nat) (hp : ptr < 4)
    (h1 : ptr + 1 ≠ (L + 4294967296 - 4) % 4294967296) (h2 : ptr + 1 ≠ 517) :
    pharseLoop (b :: rest) ⟨.DATA, cl, cm, da, cr⟩ ptr chk L
      = pharseLoop rest ⟨.DATA, cl, bufWrite cm ptr b, da, cr⟩ (ptr + 1) (chk + b) L := by
  have h1' : ptr + 1 ≠ (L + 4294967292) % 4294967296 := by omega
  simp [pharseLoop, CP_CMD_FIELD_LEN, CP_DATA_FIELD_LEN, hp, h1', h2]

lemma pharseLoop_data_cmd_final (b : Nat) (rest : List Nat) (cl cm da cr : Nat → Nat)
    (ptr chk L : Nat) (hp : ptr < 4)
    (h1 : ptr + 1 = (L + 4294967296 - 4) % 4294967296) :
    pharseLoop (b :: rest) ⟨.DATA, cl, cm, da, cr⟩ ptr chk L
      = pharseLoop rest ⟨.CRC, cl, bufWrite cm ptr b, da, cr⟩ 0 (chk + b) L := by
  have h1' : ptr + 1 = (L + 4294967292) % 4294967296 := by omega
  simp [pharseLoop, CP_CMD_FIELD_LEN, CP_DATA_FIELD_LEN, hp, h1']

lemma pharseLoop_data_data_step (b : Nat) (rest : List Nat) (cl cm da cr : Nat → Nat)
    (ptr chk L : Nat) (hp : 4 ≤ ptr)
    (h1 : ptr + 1 ≠ (L + 4294967296 - 4) % 4294967296) (h2 : ptr + 1 ≠ 517) :
    pharseLoop (b :: rest) ⟨.DATA, cl, cm, da, cr⟩ ptr chk L
      = pharseLoop rest ⟨.DATA, cl, cm, bufWrite da (ptr - 4) b, cr⟩ (ptr + 1) (chk + b) L := by
  have hp' : ¬ ptr < 4 := by omega
  have h1' : ptr + 1 ≠ (L + 4294967292) % 4294967296 := by omega
  simp [pharseLoop, CP_CMD_FIELD_LEN, CP_DATA_FIELD_LEN, hp', h1', h2]

lemma pharseLoop_data_data_final (b : Nat) (rest : List Nat) (cl cm da cr : Nat → Nat)
    (ptr chk L : Nat) (hp : 4 ≤ ptr)
    (h1 : ptr + 1 = (L + 4294967296 - 4) % 4294967296) :
    pharseLoop (b :: rest) ⟨.DATA, cl, cm, da, cr⟩ ptr chk L
      = pharseLoop rest ⟨.CRC, cl, cm, bufWrite da (ptr - 4) b, cr⟩ 0 (chk + b) L := by
  have hp' : ¬ ptr < 4 := by omega
  have h1' : ptr + 1 = (L + 4294967292) % 4294967296 := by omega
  simp [pharseLoop, CP_CMD_FIELD_LEN, CP_DATA_FIELD_LEN, hp', h1']

lemma pharseLoop_crc_step (b : Nat) (rest : List Nat) (cl cm da cr : Nat → Nat)
    (ptr chk L : Nat) (h : ptr + 1 ≠ 4) :
    pharseLoop (b :: rest) ⟨.CRC, cl, cm, da, cr⟩ ptr chk L
      = pharseLoop rest ⟨.CRC, cl, cm, da, bufWrite cr ptr b⟩ (ptr + 1) chk L := by
  simp [pharseLoop, CP_CRC_FIELD_LEN, h]

lemma pharseLoop_crc_final (b : Nat) (rest : List Nat) (cl cm da cr : Nat → Nat)
    (chk L : Nat) :
    pharseLoop (b :: rest) ⟨.CRC, cl, cm, da, cr⟩ 3 chk L
      = (⟨.CRC, cl, cm, da, bufWrite cr 3 b⟩,
          if bufWrite cr 3 b 0 = 88 ∧ bufWrite cr 3 b 1 = 88
              ∧ bufWrite cr 3 b 2 = 88 ∧ bufWrite cr 3 b 3 = 88 then 0
          else if chk = strtoulHex (cstr (bufWrite cr 3 b) 5) 0 then 0 else -1) := by
  simp only [pharseLoop, CP_CRC_FIELD_LEN]
  norm_num
  split
  · rfl
  · split <;> rfl

/-! ### Region lemmas for the parse state machine -/

lemma pharseLoop_no_marker : ∀ (bs : List Nat), 35 ∉ bs →
    ∀ (cl cm da cr : Nat → Nat) (ptr chk len : Nat),
    pharseLoop bs ⟨.START_CHAR, cl, cm, da, cr⟩ ptr chk len
      = (⟨.START_CHAR, cl, cm, da, cr⟩, 0) := by
  intro bs
  induction bs with
  | nil => intros; rfl
  | cons b t ih =>
    intro hb cl cm da cr ptr chk len
    have hb1 : b ≠ 35 := by
      intro h
      exact hb (h ▸ List.mem_cons_self b t)
    have hb2 : 35 ∉ t := fun h => hb (List.mem_cons_of_mem _ h)
    rw [pharseLoop_skip b hb1 t]
    exact ih hb2 cl cm da cr ptr chk len

lemma pharseLoop_data_run : ∀ (ds rest : List Nat) (cl cm da cr : Nat → Nat) (k chk L : Nat),
    4 ≤ k → k + ds.length = L - 4 → k < L - 4 → L ≤ 520 →
    pharseLoop (ds ++ rest) ⟨.DATA, cl, cm, da, cr⟩ k chk L
      = pharseLoop rest ⟨.CRC, cl, cm, bufWriteList da (k - 4) ds, cr⟩ 0 (chk + ds.sum) L := by
  intro ds
  induction ds with
  | nil =>
    intro rest cl cm da cr k chk L h4 hsum hlt _
    exfalso
    simp only [List.length_nil] at hsum
    omega
  | cons b t ih =>
    intro rest cl cm da cr k chk L h4 hsum hlt hL
    rcases t with _ | ⟨c, t'⟩
    · have h1 : k + 1 = (L + 4294967296 - 4) % 4294967296 := by
        simp only [List.length_cons, List.length_nil] at hsum
        omega
      rw [List.cons_append, List.nil_append,
        pharseLoop_data_data_final b rest cl cm da cr k chk L h4 h1]
      have e2 : chk + [b].sum = chk + b := by simp
      rw [e2]
      rfl
    · have h1 : k + 1 ≠ (L + 4294967296 - 4) % 4294967296 := by
        simp only [List.length_cons] at hsum
        omega
      have h2 : k + 1 ≠ 517 := by omega
      rw [List.cons_append,
        pharseLoop_data_data_step b ((c :: t') ++ rest) cl cm da cr k chk L h4 h1 h2,
        ih rest cl cm (bufWrite da (k - 4) b) cr (k + 1) (chk + b) L (by omega)
          (by simp only [List.length_cons] at hsum ⊢; omega)
          (by simp only [List.length_cons] at hsum; omega) hL]
      have e1 : bufWriteList da (k - 4) (b :: c :: t')
          = bufWriteList (bufWrite da (k - 4) b) (k + 1 - 4) (c :: t') := by
        rw [show k + 1 - 4 = k - 4 + 1 by omega]
        rfl
      have e2 : chk + (b :: c :: t').sum = chk + b + (c :: t').sum := by
        simp only [List.sum_cons]
        omega
      rw [e1, e2]

lemma pharseLoop_data_run_partial : ∀ (ds : List Nat) (cl cm da cr : Nat → Nat) (k chk L : Nat),
    4 ≤ k → k + ds.length < L - 4 → L ≤ 520 →
    pharseLoop ds ⟨.DATA, cl, cm, da, cr⟩ k chk L
      = (⟨.DATA, cl, cm, bufWriteList da (k - 4) ds, cr⟩, 0) := by
  intro ds
  induction ds with
  | nil => intro cl cm da cr k chk L _ _ _; rfl
  | cons b t ih =>
    intro cl cm da cr k chk L h4 hlt hL
    simp only [List.length_cons] at hlt
    have h1 : k + 1 ≠ (L + 4294967296 - 4) % 4294967296 := by omega
    have h2 : k + 1 ≠ 517 := by omega
    rw [pharseLoop_data_data_step b t cl cm da cr k chk L h4 h1 h2,
      ih cl cm (bufWrite da (k - 4) b) cr (k + 1) (chk + b) L (by omega) (by omega) hL]
    have e1 : bufWriteList da (k - 4) (b :: t)
        = bufWriteList (bufWrite da (k - 4) b) (k + 1 - 4) t := by
      rw [show k + 1 - 4 = k - 4 + 1 by omega]
      rfl
    rw [e1]

lemma pharseLoop_cmd4_more (c0 c1 c2 c3 : Nat) (rest : List Nat) (cl cm da cr : Nat → Nat)
    (chk L : Nat) (h8 : 8 < L) (hL : L ≤ 520) :
    pharseLoop (c0 :: c1 :: c2 :: c3 :: rest) ⟨.DATA, cl, cm, da, cr⟩ 0 chk L
      = pharseLoop rest ⟨.DATA, cl, bufWriteList cm 0 [c0, c1, c2, c3], da, cr⟩ 4
          (chk + c0 + c1 + c2 + c3) L := by
  have hw : (L + 4294967296 - 4) % 4294967296 = L - 4 := by omega
  rw [pharseLoop_data_cmd_step c0 _ cl cm da cr 0 chk L (by omega) (by omega) (by omega),
    pharseLoop_data_cmd_step c1 _ cl _ da cr 1 _ L (by omega) (by omega) (by omega),
    pharseLoop_data_cmd_step c2 _ cl _ da cr 2 _ L (by omega) (by omega) (by omega),
    pharseLoop_data_cmd_step c3 _ cl _ da cr 3 _ L (by omega) (by omega) (by omega)]
  rfl

lemma pharseLoop_cmd4_exact (c0 c1 c2 c3 : Nat) (rest : List Nat) (cl cm da cr : Nat → Nat)
    (chk : Nat) :
    pharseLoop (c0 :: c1 :: c2 :: c3 :: rest) ⟨.DATA, cl, cm, da, cr⟩ 0 chk 8
      = pharseLoop rest ⟨.CRC, cl, bufWriteList cm 0 [c0, c1, c2, c3], da, cr⟩ 0
          (chk + c0 + c1 + c2 + c3) 8 := by
  rw [pharseLoop_data_cmd_step c0 _ cl cm da cr 0 chk 8 (by omega) (by omega) (by omega),
    pharseLoop_data_cmd_step c1 _ cl _ da cr 1 _ 8 (by omega) (by omega) (by omega),
    pharseLoop_data_cmd_step c2 _ cl _ da cr 2 _ 8 (by omega) (by omega) (by omega),
    pharseLoop_data_cmd_final c3 _ cl _ da cr 3 _ 8 (by omega) (by omega)]
  rfl

lemma pharseLoop_cmd_partial (bs : List Nat) (cl cm da cr : Nat → Nat) (chk L : Nat)
    (hlen : bs.length ≤ 3) (h8 : 8 ≤ L) (hL : L ≤ 520) :
    pharseLoop bs ⟨.DATA, cl, cm, da, cr⟩ 0 chk L
      = (⟨.DATA, cl, bufWriteList cm 0 bs, da, cr⟩, 0) := by
  rcases bs with _ | ⟨a, _ | ⟨b, _ | ⟨c, _ | ⟨d, t⟩⟩⟩⟩
  · rfl
  · rw [pharseLoop_data_cmd_step a _ cl cm da cr 0 chk L (by omega) (by omega) (by omega)]
    rfl
  · rw [pharseLoop_data_cmd_step a _ cl cm da cr 0 chk L (by omega) (by omega) (by omega),
      pharseLoop_data_cmd_step b _ cl _ da cr 1 _ L (by omega) (by omega) (by omega)]
    rfl
  · rw [pharseLoop_data_cmd_step a _ cl cm da cr 0 chk L (by omega) (by omega) (by omega),
      pharseLoop_data_cmd_step b _ cl _ da cr 1 _ L (by omega) (by omega) (by omega),
      pharseLoop_data_cmd_step c _ cl _ da cr 2 _ L (by omega) (by omega) (by omega)]
    rfl
  · simp at hlen

lemma pharseLoop_crc_partial (bs : List Nat) (cl cm da cr : Nat → Nat) (chk L : Nat)
    (hlen : bs.length ≤ 3) :
    pharseLoop bs ⟨.CRC, cl, cm, da, cr⟩ 0 chk L
      = (⟨.CRC, cl, cm, da, bufWriteList cr 0 bs⟩, 0) := by
  rcases bs with _ | ⟨a, _ | ⟨b, _ | ⟨c, _ | ⟨d, t⟩⟩⟩⟩
  · rfl
  · rw [pharseLoop_crc_step a _ cl cm da cr 0 chk L (by omega)]
    rfl
  · rw [pharseLoop_crc_step a _ cl cm da cr 0 chk L (by omega),
      pharseLoop_crc_step b _ cl cm da _ 1 chk L (by omega)]
    rfl
  · rw [pharseLoop_crc_step a _ cl cm da cr 0 chk L (by omega),
      pharseLoop_crc_step b _ cl cm da _ 1 chk L (by omega),
      pharseLoop_crc_step c _ cl cm da _ 2 chk L (by omega)]
    rfl
  · simp at hlen

lemma pharseLoop_crc4 (r0 r1 r2 r3 : Nat) (rest : List Nat) (cl cm da cr : Nat → Nat)
    (chk L : Nat) :
    pharseLoop (r0 :: r1 :: r2 :: r3 :: rest) ⟨.CRC, cl, cm, da, cr⟩ 0 chk L
      = (⟨.CRC, cl, cm, da, bufWriteList cr 0 [r0, r1, r2, r3]⟩,
          if r0 = 88 ∧ r1 = 88 ∧ r2 = 88 ∧ r3 = 88 then 0
          else if chk = strtoulHex (cstr (bufWriteList cr 0 [r0, r1, r2, r3]) 5) 0 then 0
          else -1) := by
  rw [pharseLoop_crc_step r0 _ cl cm da cr 0 chk L (by omega),
    pharseLoop_crc_step r1 _ cl cm da _ 1 chk L (by omega),
    pharseLoop_crc_step r2 _ cl cm da _ 2 chk L (by omega),
    pharseLoop_crc_final r3 _ cl cm da _ chk L]
  simp only [bufWriteList, bufWrite]
  norm_num

/-- The phaser produced by `cmdParser_Init` (it ignores its argument). -/
def freshCmdPhaser : CmdPhaser :=
  { mCmdParserState := .START_CHAR
    mCmdLen := fun _ => 0
    mCmd := fun _ => 0
    mData := fun _ => 0
    mCRC := fun _ => 0 }

lemma cmdParser_Init_eq (ph : CmdPhaser) : cmdParser_Init ph = freshCmdPhaser := rfl

lemma strtoulHex_lenBuffer (n : Nat) (hn : n < 65536) :
    strtoulHex (cstr (bufWriteList (fun _ => 0) 0 (hex4 n)) 5) 0 = n := by
  rw [show bufWriteList (fun _ => 0) 0 (hex4 n)
      = bufWriteList (fun _ => 0) 0 [hexDigit (n / 4096 % 16), hexDigit (n / 256 % 16),
          hexDigit (n / 16 % 16), hexDigit (n % 16)] from rfl]
  rw [cstr_write4 _ _ _ _ (hexDigit_ne_zero _) (hexDigit_ne_zero _) (hexDigit_ne_zero _)
    (hexDigit_ne_zero _)]
  exact strtoulHex_hex4 n hn

lemma pharseLoop_packet (c0 c1 c2 c3 : Nat) (data : List Nat) (hd : data.length ≤ 508) :
    pharseLoop
      (32 :: 32 :: 32 :: 35 :: (hex4 (data.length + 8)
        ++ (c0 :: c1 :: c2 :: c3 :: (data ++ [88, 88, 88, 88]))))
      freshCmdPhaser 0 0 0
    = (⟨.CRC, bufWriteList (fun _ => 0) 0 (hex4 (data.length + 8)),
        bufWriteList (fun _ => 0) 0 [c0, c1, c2, c3],
        bufWriteList (fun _ => 0) 0 data,
        bufWriteList (fun _ => 0) 0 [88, 88, 88, 88]⟩, 0) := by
  have hstr : strtoulHex (cstr (bufWrite (bufWrite (bufWrite (bufWrite (fun _ => 0) 0
      (hexDigit ((data.length + 8) / 4096 % 16))) 1 (hexDigit ((data.length + 8) / 256 % 16))) 2
      (hexDigit ((data.length + 8) / 16 % 16))) 3 (hexDigit ((data.length + 8) % 16))) 5) 0
      = data.length + 8 := by
    rw [show (bufWrite (bufWrite (bufWrite (bufWrite (fun _ => 0) 0
        (hexDigit ((data.length + 8) / 4096 % 16))) 1 (hexDigit ((data.length + 8) / 256 % 16))) 2
        (hexDigit ((data.length + 8) / 16 % 16))) 3 (hexDigit ((data.length + 8) % 16)))
        = bufWriteList (fun _ => 0) 0 (hex4 (data.length + 8)) from rfl]
    exact strtoulHex_lenBuffer _ (by omega)
  unfold freshCmdPhaser
  rw [pharseLoop_skip 32 (by omega) _ _ _ _ _ _ _ _,
    pharseLoop_skip 32 (by omega) _ _ _ _ _ _ _ _,
    pharseLoop_skip 32 (by omega) _ _ _ _ _ _ _ _,
    pharseLoop_marker]
  rw [show hex4 (data.length + 8) ++ (c0 :: c1 :: c2 :: c3 :: (data ++ [88, 88, 88, 88]))
      = hexDigit ((data.length + 8) / 4096 % 16) :: hexDigit ((data.length + 8) / 256 % 16)
        :: hexDigit ((data.length + 8) / 16 % 16) :: hexDigit ((data.length + 8) % 16)
        :: (c0 :: c1 :: c2 :: c3 :: (data ++ [88, 88, 88, 88])) from rfl]
  rw [pharseLoop_len_step _ _ _ _ _ _ _ _ _ (by omega),
    pharseLoop_len_step _ _ _ _ _ _ _ _ _ (by omega),
    pharseLoop_len_step _ _ _ _ _ _ _ _ _ (by omega),
    pharseLoop_len_final_valid _ _ _ _ _ _ _ _ (by rw [hstr]; omega) (by rw [hstr]; omega)]
  rw [hstr]
  rcases data with _ | ⟨d0, data'⟩
  · rw [show ([] : List Nat).length + 8 = 8 from rfl]
    rw [show (([] : List Nat) ++ [88, 88, 88, 88]) = [(88 : Nat), 88, 88, 88] from rfl]
    rw [pharseLoop_cmd4_exact, pharseLoop_crc4]
    norm_num
    exact ⟨rfl, rfl⟩
  · rw [pharseLoop_cmd4_more _ _ _ _ _ _ _ _ _ _ _
      (by simp only [List.length_cons] at hd ⊢; omega)
      (by simp only [List.length_cons] at hd ⊢; omega)]
    rw [show ((d0 :: data') ++ [88, 88, 88, 88]) = (d0 :: data') ++ [(88 : Nat), 88, 88, 88]
      from rfl]
    rw [pharseLoop_data_run (d0 :: data') [88, 88, 88, 88] _ _ _ _ 4 _ _ (by omega)
      (by simp only [List.length_cons] at hd ⊢; omega)
      (by simp only [List.length_cons] at hd ⊢; omega)
      (by simp only [List.length_cons] at hd ⊢; omega)]
    rw [show (4 : Nat) - 4 = 0 from rfl]
    rw [pharseLoop_crc4]
    norm_num
    rfl

lemma pharseCmd_buildPacket (c0 c1 c2 c3 : Nat) (data : List Nat) (hd : data.length ≤ 508) :
    cmdParser_PharseCmd freshCmdPhaser (buildPacket [c0, c1, c2, c3] data)
      = (⟨.CRC, bufWriteList (fun _ => 0) 0 (hex4 (data.length + 8)),
          bufWriteList (fun _ => 0) 0 [c0, c1, c2, c3],
          bufWriteList (fun _ => 0) 0 data,
          bufWriteList (fun _ => 0) 0 [88, 88, 88, 88]⟩, 0) := by
  have harg : ([c0, c1, c2, c3] : List Nat).length + data.length + 4 = data.length + 8 := by
    simp
    omega
  have hshape : buildPacket [c0, c1, c2, c3] data
      = 32 :: 32 :: 32 :: 35 :: (hex4 (data.length + 8)
          ++ (c0 :: c1 :: c2 :: c3 :: (data ++ [88, 88, 88, 88]))) := by
    unfold buildPacket
    rw [harg]
    simp [List.append_assoc, List.cons_append, List.nil_append]
  have hlen : (buildPacket [c0, c1, c2, c3] data).length
      ≤ CP_CMD_FIELD_LEN + CP_DLEN_FIELD_LEN + CP_DATA_FIELD_LEN + CP_CRC_FIELD_LEN := by
    rw [hshape]
    simp [hex4, CP_CMD_FIELD_LEN, CP_DLEN_FIELD_LEN, CP_DATA_FIELD_LEN, CP_CRC_FIELD_LEN]
    omega
  unfold cmdParser_PharseCmd
  rw [List.take_of_length_le hlen, hshape]
  exact pharseLoop_packet c0 c1 c2 c3 data hd

lemma bufWriteList_read_lt : ∀ (bs : List Nat) (buf : Nat → Nat) (pos j : Nat), j < pos →
    bufWriteList buf pos bs j = buf j := by
  intro bs
  induction bs with
  | nil => intros; rfl
  | cons b t ih =>
    intro buf pos j hj
    show bufWriteList (bufWrite buf pos b) (pos + 1) t j = buf j
    rw [ih _ (pos + 1) j (by omega)]
    simp [bufWrite]
    omega

lemma bufWriteList_read : ∀ (bs : List Nat) (buf : Nat → Nat) (pos j : Nat) (hj : j < bs.length),
    bufWriteList buf pos bs (pos + j) = bs.get ⟨j, hj⟩ := by
  intro bs
  induction bs with
  | nil => intro buf pos j hj; simp at hj
  | cons b t ih =>
    intro buf pos j hj
    cases j with
    | zero =>
      show bufWriteList (bufWrite buf pos b) (pos + 1) t (pos + 0) = b
      rw [bufWriteList_read_lt t _ (pos + 1) (pos + 0) (by omega)]
      simp [bufWrite]
    | succ j =>
      show bufWriteList (bufWrite buf pos b) (pos + 1) t (pos + (j + 1)) = _
      have e : pos + (j + 1) = (pos + 1) + j := by omega
      rw [e, ih (bufWrite buf pos b) (pos + 1) j (by simpa using hj)]
      rfl

lemma map_range_bufWriteList (bs : List Nat) (buf : Nat → Nat) :
    (List.range bs.length).map (bufWriteList buf 0 bs) = bs := by
  apply List.ext_getElem
  · simp
  · intro i h1 h2
    simp only [List.getElem_map, List.getElem_range]
    have := bufWriteList_read bs buf 0 i (by simpa using h2)
    simpa using this

/-- **C4.**  For every valid (command, data) pair — a 4-byte command and a
data payload that fits the parser's 512-byte data field — parsing the bytes
produced by `buildPacket` (the 3-space-plus-`#` marker, the 4-hex-digit
length `len(command) + len(data) + 4`, the command, the data, and the
`"XXXX"` CRC placeholder) from a freshly initialized parser succeeds (return
value 0, CRC verification skipped) and recovers the original command and
data exactly in the phaser's command and data fields. -/
theorem buildPacket_parse_roundTrip (command data : List Nat)
    (hc : command.length = 4) (hd : data.length ≤ 508) :
    (cmdParser_PharseCmd freshCmdPhaser (buildPacket command data)).2 = 0
    ∧ (List.range 4).map (cmdParser_PharseCmd freshCmdPhaser
        (buildPacket command data)).1.mCmd = command
    ∧ (List.range data.length).map (cmdParser_PharseCmd freshCmdPhaser
        (buildPacket command data)).1.mData = data := by
  rcases command with _ | ⟨c0, _ | ⟨c1, _ | ⟨c2, _ | ⟨c3, _ | ⟨c4, t⟩⟩⟩⟩⟩ <;>
    simp only [List.length_cons, List.length_nil] at hc <;> try omega
  rw [pharseCmd_buildPacket c0 c1 c2 c3 data hd]
  refine ⟨rfl, ?_, ?_⟩
  · exact map_range_bufWriteList [c0, c1, c2, c3] (fun _ => 0)
  · exact map_range_bufWriteList data (fun _ => 0)

/-- C4 witness: the concrete WREG packet for writing 0x14 to register 0xC0
round-trips: `buildPacket "WREG" "C014"` parses back to command `WREG` and
data `C014`. -/
theorem buildPacket_parse_roundTrip_witness :
    (cmdParser_PharseCmd freshCmdPhaser
        (buildPacket [87, 82, 69, 71] [67, 48, 49, 52])).2 = 0
    ∧ (List.range 4).map (cmdParser_PharseCmd freshCmdPhaser
        (buildPacket [87, 82, 69, 71] [67, 48, 49, 52])).1.mCmd = [87, 82, 69, 71]
    ∧ (List.range 4).map (cmdParser_PharseCmd freshCmdPhaser
        (buildPacket [87, 82, 69, 71] [67, 48, 49, 52])).1.mData = [67, 48, 49, 52] :=
  buildPacket_parse_roundTrip [87, 82, 69, 71] [67, 48, 49, 52] (by decide) (by decide)

lemma bufWriteList_read_ge : ∀ (bs : List Nat) (buf : Nat → Nat) (pos j : Nat),
    pos + bs.length ≤ j → bufWriteList buf pos bs j = buf j := by
  intro bs
  induction bs with
  | nil => intros; rfl
  | cons b t ih =>
    intro buf pos j hj
    simp only [List.length_cons] at hj
    show bufWriteList (bufWrite buf pos b) (pos + 1) t j = buf j
    rw [ih _ (pos + 1) j (by omega)]
    simp [bufWrite]
    omega

lemma cstr_zeros : cstr (fun _ => 0) 5 = [] := by decide

lemma cstr_short (bs : List Nat) (h : bs.length ≤ 4) :
    (cstr (bufWriteList (fun _ => 0) 0 bs) 5).length ≤ bs.length := by
  have hz : ((List.range 5).map (bufWriteList (fun _ => 0) 0 bs)).get
      ⟨bs.length, by simp; omega⟩ = 0 := by
    simp only [List.get_eq_getElem, List.getElem_map, List.getElem_range]
    exact bufWriteList_read_ge bs (fun _ => 0) 0 bs.length (by omega)
  exact takeWhile_length_le_of_get_zero _ bs.length (by simp; omega) hz

lemma commit_no_match (ph : CmdPhaser) (env : CmdEnv) (ab : Nat → Nat)
    (h : (cstr ph.mCmd CP_CMD_FIELD_LEN).length < 4) :
    cmdParser_CommitCmd ph env ab = ([], ⟨env.quadrant, [], none⟩) := by
  unfold cmdParser_CommitCmd
  rw [if_neg (fun he => by rw [he] at h; simp [CMD_WREG] at h),
    if_neg (fun he => by rw [he] at h; simp [CMD_RREG] at h),
    if_neg (fun he => by rw [he] at h; simp [CMD_RRSE] at h),
    if_neg (fun he => by rw [he] at h; simp [CMD_POLL] at h)]

lemma buildPacket_shape (c0 c1 c2 c3 : Nat) (data : List Nat) :
    buildPacket [c0, c1, c2, c3] data
      = 32 :: 32 :: 32 :: 35 :: (hex4 (data.length + 8)
          ++ (c0 :: c1 :: c2 :: c3 :: (data ++ [88, 88, 88, 88]))) := by
  have harg : ([c0, c1, c2, c3] : List Nat).length + data.length + 4 = data.length + 8 := by
    simp
    omega
  unfold buildPacket
  rw [harg]
  simp [List.append_assoc, List.cons_append, List.nil_append]

lemma buildPacket_length (c0 c1 c2 c3 : Nat) (data : List Nat) :
    (buildPacket [c0, c1, c2, c3] data).length = 16 + data.length := by
  rw [buildPacket_shape]
  simp [hex4]
  omega

lemma pharseLoop_prefix8 (L : Nat) (rest : List Nat) (hL8 : 8 ≤ L) (hL : L < 65536) :
    pharseLoop (32 :: 32 :: 32 :: 35 :: (hex4 L ++ rest)) freshCmdPhaser 0 0 0
      = pharseLoop rest ⟨.DATA, bufWriteList (fun _ => 0) 0 (hex4 L),
          fun _ => 0, fun _ => 0, fun _ => 0⟩ 0
          (0 + hexDigit (L / 4096 % 16) + hexDigit (L / 256 % 16) + hexDigit (L / 16 % 16)
            + hexDigit (L % 16)) L := by
  have hstr : strtoulHex (cstr (bufWrite (bufWrite (bufWrite (bufWrite (fun _ => 0) 0
      (hexDigit (L / 4096 % 16))) 1 (hexDigit (L / 256 % 16))) 2
      (hexDigit (L / 16 % 16))) 3 (hexDigit (L % 16))) 5) 0 = L := by
    rw [show (bufWrite (bufWrite (bufWrite (bufWrite (fun _ => 0) 0
        (hexDigit (L / 4096 % 16))) 1 (hexDigit (L / 256 % 16))) 2
        (hexDigit (L / 16 % 16))) 3 (hexDigit (L % 16)))
        = bufWriteList (fun _ => 0) 0 (hex4 L) from rfl]
    exact strtoulHex_lenBuffer _ hL
  unfold freshCmdPhaser
  rw [pharseLoop_skip 32 (by omega) _ _ _ _ _ _ _ _,
    pharseLoop_skip 32 (by omega) _ _ _ _ _ _ _ _,
    pharseLoop_skip 32 (by omega) _ _ _ _ _ _ _ _,
    pharseLoop_marker]
  rw [show hex4 L ++ rest
      = hexDigit (L / 4096 % 16) :: hexDigit (L / 256 % 16)
        :: hexDigit (L / 16 % 16) :: hexDigit (L % 16) :: rest from rfl]
  rw [pharseLoop_len_step _ _ _ _ _ _ _ _ _ (by omega),
    pharseLoop_len_step _ _ _ _ _ _ _ _ _ (by omega),
    pharseLoop_len_step _ _ _ _ _ _ _ _ _ (by omega),
    pharseLoop_len_final_valid _ _ _ _ _ _ _ _ (by rw [hstr]; omega) (by rw [hstr]; omega)]
  rw [hstr]
  norm_num [bufWriteList, hex4]

lemma pharseCmd_truncated (c0 c1 c2 c3 : Nat) (data : List Nat) (hd : data.length ≤ 508)
    (i : Nat) (hi8 : 8 ≤ i) (hi : i < (buildPacket [c0, c1, c2, c3] data).length) :
    (cmdParser_PharseCmd freshCmdPhaser ((buildPacket [c0, c1, c2, c3] data).take i)).2 = 0 := by
  obtain ⟨n, rfl⟩ : ∃ n, i = 8 + n := ⟨i - 8, by omega⟩
  rw [buildPacket_length] at hi
  have hn : n < 8 + data.length := by omega
  have htake : (buildPacket [c0, c1, c2, c3] data).take (8 + n)
      = 32 :: 32 :: 32 :: 35 :: (hex4 (data.length + 8)
          ++ ((c0 :: c1 :: c2 :: c3 :: (data ++ [88, 88, 88, 88])).take n)) := by
    rw [buildPacket_shape]
    rw [show 8 + n = (7 + n) + 1 by omega, List.take_succ_cons,
      show 7 + n = (6 + n) + 1 by omega, List.take_succ_cons,
      show 6 + n = (5 + n) + 1 by omega, List.take_succ_cons,
      show 5 + n = (4 + n) + 1 by omega, List.take_succ_cons,
      show 4 + n = (hex4 (data.length + 8)).length + n by simp [hex4],
      List.take_append]
  unfold cmdParser_PharseCmd
  rw [List.take_of_length_le (by simp [CP_CMD_FIELD_LEN, CP_DLEN_FIELD_LEN, CP_DATA_FIELD_LEN,
    CP_CRC_FIELD_LEN, List.length_take, buildPacket_length]; omega)]
  rw [htake, pharseLoop_prefix8 (data.length + 8) _ (by omega) (by omega)]
  by_cases h3 : n ≤ 3
  · rw [ pharseLoop_cmd_partial _ _ _ _ _ _ _
      (by simp [List.length_take]; omega) (by omega) (by omega)]
  · by_cases h4 : n ≤ 3 + data.length
    · have htail : (c0 :: c1 :: c2 :: c3 :: (data ++ [88, 88, 88, 88])).take n
          = c0 :: c1 :: c2 :: c3 :: data.take (n - 4) := by
        obtain ⟨m, rfl⟩ : ∃ m, n = m + 4 := ⟨n - 4, by omega⟩
        rw [show m + 4 = (m + 3) + 1 by omega, List.take_succ_cons,
          show m + 3 = (m + 2) + 1 by omega, List.take_succ_cons,
          show m + 2 = (m + 1) + 1 by omega, List.take_succ_cons,
          List.take_succ_cons,
          List.take_append_of_le_length (by omega),
          show m + 4 - 4 = m by omega]
      rw [htail, pharseLoop_cmd4_more _ _ _ _ _ _ _ _ _ _ _ (by omega) (by omega),
        pharseLoop_data_run_partial _ _ _ _ _ _ _ _ (by omega)
          (by simp [List.length_take]; omega) (by omega)]
    · have htail : (c0 :: c1 :: c2 :: c3 :: (data ++ [88, 88, 88, 88])).take n
          = c0 :: c1 :: c2 :: c3
              :: (data ++ [88, 88, 88, 88].take (n - 4 - data.length)) := by
        obtain ⟨m, rfl⟩ : ∃ m, n = m + 4 := ⟨n - 4, by omega⟩
        rw [show m + 4 = (m + 3) + 1 by omega, List.take_succ_cons,
          show m + 3 = (m + 2) + 1 by omega, List.take_succ_cons,
          show m + 2 = (m + 1) + 1 by omega, List.take_succ_cons,
          List.take_succ_cons,
          List.take_append_eq_append_take, List.take_of_length_le (by omega),
          show m + 4 - 4 = m by omega]
      rcases Nat.eq_zero_or_pos data.length with hd0 | hd1
      · have hdata : data = [] := List.length_eq_zero.mp hd0
        subst hdata
        rw [htail]
        simp only [List.length_nil, List.nil_append, Nat.zero_add, Nat.sub_zero]
        rw [pharseLoop_cmd4_exact, pharseLoop_crc_partial _ _ _ _ _ _ _
          (by simp [List.length_take]; omega)]
      · rw [htail, pharseLoop_cmd4_more _ _ _ _ _ _ _ _ _ _ _ (by omega) (by omega),
          pharseLoop_data_run data ([88, 88, 88, 88].take (n - 4 - data.length)) _ _ _ _ 4 _ _
            (by omega) (by omega) (by omega) (by omega),
          pharseLoop_crc_partial _ _ _ _ _ _ _ (by simp [List.length_take]; omega)]

/-- A sample command-execution environment for concrete runs: frame channel
disconnected, quadrant state from `quadrant_Init` with empty NVS, all
external registers and version bytes 0. -/
def sampleEnv : CmdEnv :=
  ⟨false, quadrant_Init (fun _ => none), fun _ => 0, fun _ => 0, fun _ => 0⟩

/-- A sample command-server state for concrete runs: client connected, poll
frequency 5 Hz, a freshly initialized parser and a zeroed ACK buffer. -/
def sampleSt : CmdServerState :=
  ⟨true, 5, freshCmdPhaser, fun _ => 0⟩

/-- C3 (counterexample): the client's 20-byte `WREG C014` packet split at
byte 10 (a TCP segmentation point inside the command field).  Delivered
whole, the packet is executed: a non-empty ACK is sent and the xSplit
register becomes 0x14.  Delivered as the two fragments, both
`cmdServerReceive` cycles send nothing and perform no effects - the command
is lost, because the parser's position counters are reset on every call. -/
theorem cmdServer_split_packet_lost_cex :
    ((cmdServerReceive sampleEnv sampleSt
        ((buildPacket [87, 82, 69, 71] [67, 48, 49, 52]).take 10)).2
      = ([], ⟨sampleEnv.quadrant, [], none⟩)
    ∧ (cmdServerReceive sampleEnv
        (cmdServerReceive sampleEnv sampleSt
          ((buildPacket [87, 82, 69, 71] [67, 48, 49, 52]).take 10)).1
        ((buildPacket [87, 82, 69, 71] [67, 48, 49, 52]).drop 10)).2
      = ([], ⟨sampleEnv.quadrant, [], none⟩))
    ∧ (cmdServerReceive sampleEnv sampleSt
        (buildPacket [87, 82, 69, 71] [67, 48, 49, 52])).2.1 ≠ []
    ∧ ((cmdServerReceive sampleEnv sampleSt
        (buildPacket [87, 82, 69, 71] [67, 48, 49, 52])).2.2).quadrant.Xsplit = 20
    ∧ sampleEnv.quadrant.Xsplit = 40 := by
  decide

/-- C3: the spec says a buffer holding fewer bytes than the declared packet
length is treated as Incomplete and the same packet is still recognized and
executed once the rest arrives.  The first half is true in a weak sense
(the parse of the truncated buffer returns 0, not an error), but the second
half fails: the parser's position counters are local to each
`cmdParser_PharseCmd` call and `cmdServerReceive` re-initializes the phaser
after every read, so when a packet is split across two reads (here inside
the command field, split offset `8 ≤ i ≤ 11`), both receive cycles send no
bytes and perform no effects, and the command is lost. -/
theorem cmdServer_split_packet_lost (env : CmdEnv) (st : CmdServerState)
    (c0 c1 c2 c3 : Nat) (data : List Nat) (i : Nat)
    (hph : st.phaser = freshCmdPhaser) (hd : data.length ≤ 508)
    (hi8 : 8 ≤ i) (hi11 : i ≤ 11)
    (hc : (35 : Nat) ∉ [c0, c1, c2, c3]) (hdm : (35 : Nat) ∉ data) :
    (cmdParser_PharseCmd st.phaser ((buildPacket [c0, c1, c2, c3] data).take i)).2 = 0
    ∧ (cmdServerReceive env st ((buildPacket [c0, c1, c2, c3] data).take i)).2
        = ([], ⟨env.quadrant, [], none⟩)
    ∧ (cmdServerReceive env
          (cmdServerReceive env st ((buildPacket [c0, c1, c2, c3] data).take i)).1
          ((buildPacket [c0, c1, c2, c3] data).drop i)).2
        = ([], ⟨env.quadrant, [], none⟩)
    ∧ (cmdServerReceive env
          (cmdServerReceive env st ((buildPacket [c0, c1, c2, c3] data).take i)).1
          ((buildPacket [c0, c1, c2, c3] data).drop i)).1.pollFreqHz
        = st.pollFreqHz := by
  obtain ⟨n, rfl⟩ : ∃ n, i = 8 + n := ⟨i - 8, by omega⟩
  have hn3 : n ≤ 3 := by omega
  have htake : (buildPacket [c0, c1, c2, c3] data).take (8 + n)
      = 32 :: 32 :: 32 :: 35 :: (hex4 (data.length + 8)
          ++ ((c0 :: c1 :: c2 :: c3 :: (data ++ [88, 88, 88, 88])).take n)) := by
    rw [buildPacket_shape]
    rw [show 8 + n = (7 + n) + 1 by omega, List.take_succ_cons,
      show 7 + n = (6 + n) + 1 by omega, List.take_succ_cons,
      show 6 + n = (5 + n) + 1 by omega, List.take_succ_cons,
      show 5 + n = (4 + n) + 1 by omega, List.take_succ_cons,
      show 4 + n = (hex4 (data.length + 8)).length + n by simp [hex4],
      List.take_append]
  have hp1 : cmdParser_PharseCmd freshCmdPhaser
      ((buildPacket [c0, c1, c2, c3] data).take (8 + n))
      = (⟨.DATA, bufWriteList (fun _ => 0) 0 (hex4 (data.length + 8)),
          bufWriteList (fun _ => 0) 0
            ((c0 :: c1 :: c2 :: c3 :: (data ++ [88, 88, 88, 88])).take n),
          fun _ => 0, fun _ => 0⟩, 0) := by
    unfold cmdParser_PharseCmd
    rw [List.take_of_length_le (by simp [CP_CMD_FIELD_LEN, CP_DLEN_FIELD_LEN,
      CP_DATA_FIELD_LEN, CP_CRC_FIELD_LEN, List.length_take, buildPacket_length]; omega)]
    rw [htake, pharseLoop_prefix8 (data.length + 8) _ (by omega) (by omega),
      pharseLoop_cmd_partial _ _ _ _ _ _ _ (by simp [List.length_take]; omega)
        (by omega) (by omega)]
  have hcm : (cstr (bufWriteList (fun _ => 0) 0
      ((c0 :: c1 :: c2 :: c3 :: (data ++ [88, 88, 88, 88])).take n))
        CP_CMD_FIELD_LEN).length < 4 := by
    have h1 := cstr_short ((c0 :: c1 :: c2 :: c3 :: (data ++ [88, 88, 88, 88])).take n)
      (by simp [List.length_take]; omega)
    have h2 : ((c0 :: c1 :: c2 :: c3 :: (data ++ [88, 88, 88, 88])).take n).length ≤ 3 := by
      simp [List.length_take]
      omega
    rw [show CP_CMD_FIELD_LEN = 5 from rfl]
    omega
  have r1eq : cmdServerReceive env st ((buildPacket [c0, c1, c2, c3] data).take (8 + n))
      = ({ isClientConnected := st.isClientConnected, pollFreqHz := st.pollFreqHz,
           phaser := freshCmdPhaser, mAckBuff := st.mAckBuff },
         [], ⟨env.quadrant, [], none⟩) := by
    simp only [cmdServerReceive]
    rw [hph, hp1, commit_no_match _ _ _ hcm]
    rfl
  have hdrop : (buildPacket [c0, c1, c2, c3] data).drop (8 + n)
      = List.drop n (c0 :: c1 :: c2 :: c3 :: (data ++ [88, 88, 88, 88])) := by
    rw [buildPacket_shape]
    rw [show 8 + n = (7 + n) + 1 by omega, List.drop_succ_cons,
      show 7 + n = (6 + n) + 1 by omega, List.drop_succ_cons,
      show 6 + n = (5 + n) + 1 by omega, List.drop_succ_cons,
      show 5 + n = (4 + n) + 1 by omega, List.drop_succ_cons]
    rw [show hex4 (data.length + 8) ++ (c0 :: c1 :: c2 :: c3 :: (data ++ [88, 88, 88, 88]))
        = hexDigit ((data.length + 8) / 4096 % 16) :: hexDigit ((data.length + 8) / 256 % 16)
          :: hexDigit ((data.length + 8) / 16 % 16) :: hexDigit ((data.length + 8) % 16)
          :: (c0 :: c1 :: c2 :: c3 :: (data ++ [88, 88, 88, 88])) from rfl]
    rw [show 4 + n = (3 + n) + 1 by omega, List.drop_succ_cons,
      show 3 + n = (2 + n) + 1 by omega, List.drop_succ_cons,
      show 2 + n = (1 + n) + 1 by omega, List.drop_succ_cons,
      show 1 + n = n + 1 by omega, List.drop_succ_cons]
  have h35 : (35 : Nat) ∉ (c0 :: c1 :: c2 :: c3 :: (data ++ [88, 88, 88, 88])) := by
    rw [show (c0 :: c1 :: c2 :: c3 :: (data ++ [88, 88, 88, 88]))
        = [c0, c1, c2, c3] ++ (data ++ [88, 88, 88, 88]) from rfl]
    intro h
    rcases List.mem_append.mp h with h | h
    · exact hc h
    rcases List.mem_append.mp h with h | h
    · exact hdm h
    · simp at h
  have hp2 : cmdParser_PharseCmd freshCmdPhaser
      ((buildPacket [c0, c1, c2, c3] data).drop (8 + n)) = (freshCmdPhaser, 0) := by
    unfold cmdParser_PharseCmd freshCmdPhaser
    rw [hdrop, pharseLoop_no_marker _
      (fun hm => h35 (List.drop_subset _ _ (List.take_subset _ _ hm))) _ _ _ _ _ _ _]
  have hcm2 : (cstr (freshCmdPhaser.mCmd) CP_CMD_FIELD_LEN).length < 4 := by decide
  have r2eq : cmdServerReceive env
      { isClientConnected := st.isClientConnected, pollFreqHz := st.pollFreqHz,
        phaser := freshCmdPhaser, mAckBuff := st.mAckBuff }
      ((buildPacket [c0, c1, c2, c3] data).drop (8 + n))
      = ({ isClientConnected := st.isClientConnected, pollFreqHz := st.pollFreqHz,
           phaser := freshCmdPhaser, mAckBuff := st.mAckBuff },
         [], ⟨env.quadrant, [], none⟩) := by
    simp only [cmdServerReceive]
    rw [hp2, commit_no_match _ _ _ hcm2]
    rfl
  have hr1fst : (cmdServerReceive env st
      ((buildPacket [c0, c1, c2, c3] data).take (8 + n))).1
      = { isClientConnected := st.isClientConnected, pollFreqHz := st.pollFreqHz,
          phaser := freshCmdPhaser, mAckBuff := st.mAckBuff } := by
    rw [r1eq]
  refine ⟨by rw [hph, hp1], by rw [r1eq], ?_, ?_⟩
  · rw [hr1fst, r2eq]
  · rw [hr1fst, r2eq]

/-- C3 (witness): the split-packet loss theorem at the concrete
`WREG C014` packet split at offset 10, from the sample environment and
server state. -/
theorem cmdServer_split_packet_lost_witness :
    (cmdParser_PharseCmd sampleSt.phaser
        ((buildPacket [87, 82, 69, 71] [67, 48, 49, 52]).take 10)).2 = 0
    ∧ (cmdServerReceive sampleEnv sampleSt
        ((buildPacket [87, 82, 69, 71] [67, 48, 49, 52]).take 10)).2
        = ([], ⟨sampleEnv.quadrant, [], none⟩)
    ∧ (cmdServerReceive sampleEnv
          (cmdServerReceive sampleEnv sampleSt
            ((buildPacket [87, 82, 69, 71] [67, 48, 49, 52]).take 10)).1
          ((buildPacket [87, 82, 69, 71] [67, 48, 49, 52]).drop 10)).2
        = ([], ⟨sampleEnv.quadrant, [], none⟩)
    ∧ (cmdServerReceive sampleEnv
          (cmdServerReceive sampleEnv sampleSt
            ((buildPacket [87, 82, 69, 71] [67, 48, 49, 52]).take 10)).1
          ((buildPacket [87, 82, 69, 71] [67, 48, 49, 52]).drop 10)).1.pollFreqHz
        = sampleSt.pollFreqHz :=
  cmdServer_split_packet_lost sampleEnv sampleSt 87 82 69 71 [67, 48, 49, 52] 10
    rfl (by decide) (by decide) (by decide) (by decide) (by decide)

/-- The additive checksum the parse loop accumulates over the length field,
the command and the data bytes (the bytes "from the length field through
the end of data"). -/
def packetChecksum (c0 c1 c2 c3 : Nat) (data : List Nat) : Nat :=
  (hex4 (data.length + 8)).sum + c0 + c1 + c2 + c3 + data.sum

lemma pharseLoop_packet_crc (c0 c1 c2 c3 : Nat) (data : List Nat) (r0 r1 r2 r3 : Nat)
    (hd : data.length ≤ 508) :
    pharseLoop
      (32 :: 32 :: 32 :: 35 :: (hex4 (data.length + 8)
        ++ (c0 :: c1 :: c2 :: c3 :: (data ++ [r0, r1, r2, r3]))))
      freshCmdPhaser 0 0 0
    = (⟨.CRC, bufWriteList (fun _ => 0) 0 (hex4 (data.length + 8)),
        bufWriteList (fun _ => 0) 0 [c0, c1, c2, c3],
        bufWriteList (fun _ => 0) 0 data,
        bufWriteList (fun _ => 0) 0 [r0, r1, r2, r3]⟩,
       if r0 = 88 ∧ r1 = 88 ∧ r2 = 88 ∧ r3 = 88 then 0
       else if packetChecksum c0 c1 c2 c3 data
           = strtoulHex (cstr (bufWriteList (fun _ => 0) 0 [r0, r1, r2, r3]) 5) 0 then 0
       else -1) := by
  rw [pharseLoop_prefix8 (data.length + 8) _ (by omega) (by omega)]
  rcases data with _ | ⟨d0, data'⟩
  · rw [show ([] : List Nat).length + 8 = 8 from rfl]
    rw [show (([] : List Nat) ++ [r0, r1, r2, r3]) = [r0, r1, r2, r3] from rfl]
    rw [pharseLoop_cmd4_exact, pharseLoop_crc4]
    rw [show 0 + hexDigit (8 / 4096 % 16) + hexDigit (8 / 256 % 16) + hexDigit (8 / 16 % 16)
        + hexDigit (8 % 16) + c0 + c1 + c2 + c3
        = packetChecksum c0 c1 c2 c3 [] by simp [packetChecksum, hex4]; omega]
    rfl
  · rw [pharseLoop_cmd4_more _ _ _ _ _ _ _ _ _ _ _
      (by simp only [List.length_cons] at hd ⊢; omega)
      (by simp only [List.length_cons] at hd ⊢; omega)]
    rw [show ((d0 :: data') ++ [r0, r1, r2, r3]) = (d0 :: data') ++ [r0, r1, r2, r3]
      from rfl]
    rw [pharseLoop_data_run (d0 :: data') [r0, r1, r2, r3] _ _ _ _ 4 _ _ (by omega)
      (by simp only [List.length_cons] at hd ⊢; omega)
      (by simp only [List.length_cons] at hd ⊢; omega)
      (by simp only [List.length_cons] at hd ⊢; omega)]
    rw [show (4 : Nat) - 4 = 0 from rfl]
    rw [pharseLoop_crc4]
    rw [show 0 + hexDigit (((d0 :: data').length + 8) / 4096 % 16)
        + hexDigit (((d0 :: data').length + 8) / 256 % 16)
        + hexDigit (((d0 :: data').length + 8) / 16 % 16)
        + hexDigit (((d0 :: data').length + 8) % 16) + c0 + c1 + c2 + c3 + (d0 :: data').sum
        = packetChecksum c0 c1 c2 c3 (d0 :: data') by simp [packetChecksum, hex4]; omega]

/-- `cmdParser_CommitCmd` never reads the phaser's parse-progress state or
its CRC buffer: only the length, command and data buffers matter. -/
lemma cmdParser_CommitCmd_ignores_crc (s s' : CmdParserState)
    (cl cm da cr cr' : Nat → Nat) (env : CmdEnv) (ab : Nat → Nat) :
    cmdParser_CommitCmd ⟨s, cl, cm, da, cr⟩ env ab
      = cmdParser_CommitCmd ⟨s', cl, cm, da, cr'⟩ env ab := rfl

/-- C2 (counterexample): the packet `"   #000CWREGB1030000"` declares length
12 and carries the CRC field `"0000"`, whose value 0 differs from the
additive checksum 734 of the length/command/data bytes.  The parse reports
-1, yet `cmdServerReceive` discards that result: it still answers with a
non-empty ACK and still issues the external register write 0xB1 := 3. -/
theorem cmdServer_crc_mismatch_cex :
    (cmdParser_PharseCmd freshCmdPhaser
        [32, 32, 32, 35, 48, 48, 48, 67, 87, 82, 69, 71, 66, 49, 48, 51, 48, 48, 48, 48]).2
      = -1
    ∧ (cmdServerReceive sampleEnv sampleSt
        [32, 32, 32, 35, 48, 48, 48, 67, 87, 82, 69, 71, 66, 49, 48, 51, 48, 48, 48, 48]).2.1
      ≠ []
    ∧ (cmdServerReceive sampleEnv sampleSt
        [32, 32, 32, 35, 48, 48, 48, 67, 87, 82, 69, 71, 66, 49, 48, 51, 48, 48, 48, 48]).2.2.accesWrites
      = [(177, 3)] := by
  decide

/-- C2: the spec says a packet whose CRC field is not `"XXXX"` and does not
match the additive checksum is rejected: not executed, no response.  In
fact only the parse RESULT records the mismatch (-1); `cmdServerReceive`
ignores it, so the packet is committed and answered exactly as the same
packet with the `"XXXX"` placeholder: for every well-formed packet whose
CRC field mismatches, the parse returns -1 yet the receive cycle's outputs
equal those for the valid `buildPacket` encoding byte for byte. -/
theorem cmdServer_crc_mismatch_executed (env : CmdEnv) (st : CmdServerState)
    (c0 c1 c2 c3 : Nat) (data : List Nat) (r0 r1 r2 r3 : Nat)
    (hph : st.phaser = freshCmdPhaser) (hd : data.length ≤ 508)
    (hx : ¬(r0 = 88 ∧ r1 = 88 ∧ r2 = 88 ∧ r3 = 88))
    (hmm : packetChecksum c0 c1 c2 c3 data
      ≠ strtoulHex (cstr (bufWriteList (fun _ => 0) 0 [r0, r1, r2, r3]) 5) 0) :
    (cmdParser_PharseCmd st.phaser
        (32 :: 32 :: 32 :: 35 :: (hex4 (data.length + 8)
          ++ (c0 :: c1 :: c2 :: c3 :: (data ++ [r0, r1, r2, r3]))))).2 = -1
    ∧ cmdServerReceive env st
        (32 :: 32 :: 32 :: 35 :: (hex4 (data.length + 8)
          ++ (c0 :: c1 :: c2 :: c3 :: (data ++ [r0, r1, r2, r3]))))
      = cmdServerReceive env st (buildPacket [c0, c1, c2, c3] data) := by
  have hlen : (32 :: 32 :: 32 :: 35 :: (hex4 (data.length + 8)
      ++ (c0 :: c1 :: c2 :: c3 :: (data ++ [r0, r1, r2, r3])))).length
      ≤ CP_CMD_FIELD_LEN + CP_DLEN_FIELD_LEN + CP_DATA_FIELD_LEN + CP_CRC_FIELD_LEN := by
    simp [hex4, CP_CMD_FIELD_LEN, CP_DLEN_FIELD_LEN, CP_DATA_FIELD_LEN, CP_CRC_FIELD_LEN]
    omega
  have hbad : cmdParser_PharseCmd freshCmdPhaser
      (32 :: 32 :: 32 :: 35 :: (hex4 (data.length + 8)
        ++ (c0 :: c1 :: c2 :: c3 :: (data ++ [r0, r1, r2, r3]))))
      = (⟨.CRC, bufWriteList (fun _ => 0) 0 (hex4 (data.length + 8)),
          bufWriteList (fun _ => 0) 0 [c0, c1, c2, c3],
          bufWriteList (fun _ => 0) 0 data,
          bufWriteList (fun _ => 0) 0 [r0, r1, r2, r3]⟩, -1) := by
    unfold cmdParser_PharseCmd
    rw [List.take_of_length_le hlen, pharseLoop_packet_crc c0 c1 c2 c3 data r0 r1 r2 r3 hd,
      if_neg hx, if_neg hmm]
  have hgood := pharseCmd_buildPacket c0 c1 c2 c3 data hd
  constructor
  · rw [hph, hbad]
  · simp only [cmdServerReceive]
    rw [hph, hbad, hgood]
    rfl

/-- C2 (witness): the CRC-mismatch theorem at the concrete
`WREG B103` packet with CRC field `"0000"` (checksum 734), from the sample
environment and server state. -/
theorem cmdServer_crc_mismatch_executed_witness :
    (cmdParser_PharseCmd sampleSt.phaser
        (32 :: 32 :: 32 :: 35 :: (hex4 (([66, 49, 48, 51] : List Nat).length + 8)
          ++ (87 :: 82 :: 69 :: 71 :: ([66, 49, 48, 51] ++ [48, 48, 48, 48]))))).2 = -1
    ∧ cmdServerReceive sampleEnv sampleSt
        (32 :: 32 :: 32 :: 35 :: (hex4 (([66, 49, 48, 51] : List Nat).length + 8)
          ++ (87 :: 82 :: 69 :: 71 :: ([66, 49, 48, 51] ++ [48, 48, 48, 48]))))
      = cmdServerReceive sampleEnv sampleSt (buildPacket [87, 82, 69, 71] [66, 49, 48, 51]) :=
  cmdServer_crc_mismatch_executed sampleEnv sampleSt 87 82 69 71 [66, 49, 48, 51]
    48 48 48 48 rfl (by decide) (by decide) (by decide)

/-- C9 (supporting trace): frame client connects, the command channel sets
poll frequency 5, the frame channel then disconnects (`tcpServerSend`
failure path) - and the poll frequency still reads back 5, not 0. -/
theorem frame_disconnect_pollFreq_cex :
    (tcpServerSendFail (tcpServerAcceptClient
        (pollCommandSignals ⟨false, true, 0, 0⟩ 5))).pollFreqHz = 5
    ∧ (tcpServerSendFail (tcpServerAcceptClient
        (pollCommandSignals ⟨false, true, 0, 0⟩ 5))).tcpIsClientConnected = false := by
  decide

/-- C9: the spec says a frame-channel disconnect with nonzero poll frequency
makes the poll frequency read back as 0 immediately.  In fact no frame-side
disconnect path touches the signal: `tcpServerSend`'s failure path only
clears the connected flag and stops capture, leaving `pollFreqHz`
unchanged for every state; only a command-channel disconnect
(`cmdServerReceive` with `len <= 0`) resets it to 0. -/
theorem frame_disconnect_preserves_pollFreq (s : SignalState) :
    (tcpServerSendFail s).pollFreqHz = s.pollFreqHz
    ∧ (tcpServerSendFail s).tcpIsClientConnected = false
    ∧ (cmdServerDisconnectSignals s).pollFreqHz = 0 :=
  ⟨rfl, rfl, rfl⟩

/-- C5: the capture arbiter's Mode-2 elapsed-time gate is dead code: the
source writes the condition as `1 || (currentTime - lastPollTime) >= ...`,
so the gate passes for every tick function, poll frequency and time pair -
in particular immediately after the previous acquisition (zero elapsed
time), and frame acquisition is not rate-limited at all. -/
theorem senxorPollGate_ignores_elapsed (pdMsToTicks : Nat → Nat)
    (pollFreq currentTime lastPollTime : Nat) :
    senxorPollGate pdMsToTicks pollFreq currentTime lastPollTime = true
    ∧ senxorPollingAcquiresFrame pdMsToTicks false true 5 false
        lastPollTime lastPollTime = true := by
  constructor
  · simp [senxorPollGate]
  · simp [senxorPollingAcquiresFrame, senxorPollingModeActive, senxorPollGate]

lemma getHexValue_hexDigit (n : Nat) (h : n < 16) : getHexValue (hexDigit n) = n := by
  rcases Nat.lt_or_ge n 10 with h10 | h10
  · simp only [hexDigit, if_pos h10, getHexValue]
    rw [if_pos (by omega)]
    omega
  · simp only [hexDigit, if_neg (show ¬ n < 10 by omega), getHexValue]
    rw [if_neg (by omega), if_pos (by omega)]
    omega

lemma toHex_hex2 (v : Nat) (hv : v < 256) : toHex (hex2 v) = (v : Int) := by
  have h1 : v / 16 % 16 < 16 := Nat.mod_lt _ (by omega)
  have h2 : v % 16 < 16 := Nat.mod_lt _ (by omega)
  have hb : toHex [hexDigit (v % 16)] = ((v % 16 : Nat) : Int) := by
    simp only [toHex, getHexValue_hexDigit _ h2, LENGTH_PARSE_ERROR]
    rw [if_neg (by omega), if_neg (by decide)]
    simp
  rw [show hex2 v = hexDigit (v / 16 % 16) :: [hexDigit (v % 16)] from rfl]
  rw [show toHex (hexDigit (v / 16 % 16) :: [hexDigit (v % 16)])
      = if getHexValue (hexDigit (v / 16 % 16)) = LENGTH_PARSE_ERROR then LENGTH_PARSE_ERROR
        else if toHex [hexDigit (v % 16)] = LENGTH_PARSE_ERROR then LENGTH_PARSE_ERROR
        else getHexValue (hexDigit (v / 16 % 16))
            * 16 ^ ([hexDigit (v % 16)] : List Nat).length + toHex [hexDigit (v % 16)]
      from rfl]
  rw [getHexValue_hexDigit _ h1, hb]
  rw [if_neg (by simp [LENGTH_PARSE_ERROR]; omega),
    if_neg (by simp [LENGTH_PARSE_ERROR]; omega)]
  simp only [List.length_cons, List.length_nil, pow_one]
  have hs : v / 16 % 16 * 16 + v % 16 = v := by omega
  exact_mod_cast hs

lemma takeWhile_pair_ne_zero (x y : Nat) (hx : x ≠ 0) (hy : y ≠ 0) :
    [x, y].takeWhile (fun b => b != 0) = [x, y] := by
  simp [List.takeWhile_cons, hx, hy]

/-- `cmdParser_CommitCmd` on a parsed POLL packet (cmdParser.c POLL branch):
rejected outright (no bytes, no effects) when the frame channel has a
client, otherwise the fixed 17-byte empty-payload ACK `"   #0008POLL01FF"`
plus NUL and the requested frequency handed to `cmdServerSetPollFreqHz`. -/
lemma commit_poll (s : CmdParserState) (cl cr : Nat → Nat) (env : CmdEnv)
    (ab : Nat → Nat) (v : Nat) (hv : v < 256) :
    cmdParser_CommitCmd ⟨s, cl, bufWriteList (fun _ => 0) 0 [80, 79, 76, 76],
      bufWriteList (fun _ => 0) 0 (hex2 v), cr⟩ env ab
    = if env.tcpIsClientConnected then ([], ⟨env.quadrant, [], none⟩)
      else ([32, 32, 32, 35, 48, 48, 48, 56, 80, 79, 76, 76, 48, 49, 70, 70, 0],
            ⟨env.quadrant, [], some v⟩) := by
  have hm0 : (bufWriteList (fun _ => 0) 0 (hex2 v)) 0 = hexDigit (v / 16 % 16) := rfl
  have hm1 : (bufWriteList (fun _ => 0) 0 (hex2 v)) 1 = hexDigit (v % 16) := rfl
  simp only [cmdParser_CommitCmd]
  rw [show CP_CMD_FIELD_LEN = 5 from rfl,
    cstr_write4 80 79 76 76 (by omega) (by omega) (by omega) (by omega),
    if_neg (by decide), if_neg (by decide), if_neg (by decide),
    if_pos (show ([80, 79, 76, 76] : List Nat) = CMD_POLL from rfl)]
  by_cases htcp : env.tcpIsClientConnected = true
  · rw [if_pos htcp, if_pos htcp]
  · rw [if_neg htcp, if_neg htcp]
    rw [hm0, hm1,
      takeWhile_pair_ne_zero _ _ (hexDigit_ne_zero _) (hexDigit_ne_zero _),
      show ([hexDigit (v / 16 % 16), hexDigit (v % 16)] : List Nat) = hex2 v from rfl,
      toHex_hex2 v hv]
    rw [if_neg (by omega)]
    rw [show ((v : Int) % 256).toNat = v by omega]
    rw [show getCRC (List.map
        (fun k => bufWriteList ab 0 ([32, 32, 32, 35, 48, 48, 48, 56] ++ CMD_POLL) (4 + k))
        (List.range 8)) = 511 from rfl]
    exact rfl

/-- C6: every POLL request over the command channel is rejected silently -
no response bytes, no effects, poll frequency unchanged - when the
frame-push channel has an active consumer; otherwise it is answered with
the fixed 17-byte empty-payload ACK and the poll-frequency signal becomes
the requested 2-hex value clamped at `POLL_MAX_FREQ_HZ` = 25. -/
theorem poll_request_pipeline (env : CmdEnv) (st : CmdServerState) (v : Nat)
    (hph : st.phaser = freshCmdPhaser) (hv : v < 256) :
    (cmdServerReceive env st (buildPacket [80, 79, 76, 76] (hex2 v))).2
      = (if env.tcpIsClientConnected then ([], ⟨env.quadrant, [], none⟩)
         else ([32, 32, 32, 35, 48, 48, 48, 56, 80, 79, 76, 76, 48, 49, 70, 70, 0],
               ⟨env.quadrant, [], some v⟩))
    ∧ (cmdServerReceive env st (buildPacket [80, 79, 76, 76] (hex2 v))).1.pollFreqHz
      = (if env.tcpIsClientConnected then st.pollFreqHz
         else if v > POLL_MAX_FREQ_HZ then POLL_MAX_FREQ_HZ else v) := by
  have hparse := pharseCmd_buildPacket 80 79 76 76 (hex2 v) (by simp [hex2])
  have hfst : (cmdParser_PharseCmd freshCmdPhaser
      (buildPacket [80, 79, 76, 76] (hex2 v))).1
      = ⟨.CRC, bufWriteList (fun _ => 0) 0 (hex4 ((hex2 v).length + 8)),
          bufWriteList (fun _ => 0) 0 [80, 79, 76, 76],
          bufWriteList (fun _ => 0) 0 (hex2 v),
          bufWriteList (fun _ => 0) 0 [88, 88, 88, 88]⟩ := by
    rw [hparse]
  constructor
  · simp only [cmdServerReceive]
    rw [hph, hfst, commit_poll _ _ _ env st.mAckBuff v hv]
    by_cases htcp : env.tcpIsClientConnected = true
    · rw [if_pos htcp]
      rfl
    · rw [if_neg htcp]
      rfl
  · simp only [cmdServerReceive]
    rw [hph, hfst, commit_poll _ _ _ env st.mAckBuff v hv]
    by_cases htcp : env.tcpIsClientConnected = true
    · rw [if_pos htcp, if_pos htcp]
      rfl
    · rw [if_neg htcp, if_neg htcp]
      rfl

/-- C6 (witness): the POLL pipeline theorem at the requested frequency 200
(which exceeds the cap and clamps to 25), from the sample environment
(frame channel disconnected) and server state. -/
theorem poll_request_pipeline_witness :
    (cmdServerReceive sampleEnv sampleSt (buildPacket [80, 79, 76, 76] (hex2 200))).2
      = (if sampleEnv.tcpIsClientConnected then ([], ⟨sampleEnv.quadrant, [], none⟩)
         else ([32, 32, 32, 35, 48, 48, 48, 56, 80, 79, 76, 76, 48, 49, 70, 70, 0],
               ⟨sampleEnv.quadrant, [], some 200⟩))
    ∧ (cmdServerReceive sampleEnv sampleSt
        (buildPacket [80, 79, 76, 76] (hex2 200))).1.pollFreqHz
      = (if sampleEnv.tcpIsClientConnected then sampleSt.pollFreqHz
         else if 200 > POLL_MAX_FREQ_HZ then POLL_MAX_FREQ_HZ else 200) :=
  poll_request_pipeline sampleEnv sampleSt 200 rfl (by decide)

/-- A sample environment for the device-ID routing runs: device-ID bytes
all 0x34, external sensor registers all 0x12, frame channel disconnected. -/
def deviceIdEnv : CmdEnv :=
  ⟨false, quadrant_Init (fun _ => none), fun _ => 52, fun _ => 18, fun _ => 0⟩

/-- `cmdParser_CommitCmd` on a parsed RREG packet whose address is neither a
quadrant/burner register (0xC0-0xD5) nor a firmware-version address
(0xB2/0xB3): the 19-byte ACK carries `hex2` of the EXTERNAL sensor register
file's value (`Acces_Read_Reg`), and there are no effects. -/
lemma commit_rreg_external (s : CmdParserState) (cl cr : Nat → Nat) (env : CmdEnv)
    (ab : Nat → Nat) (a : Nat) (ha : 214 ≤ a) (hb : a < 256) :
    (cmdParser_CommitCmd ⟨s, cl, bufWriteList (fun _ => 0) 0 [82, 82, 69, 71],
        bufWriteList (fun _ => 0) 0 (hex2 a), cr⟩ env ab).2 = ⟨env.quadrant, [], none⟩
    ∧ (cmdParser_CommitCmd ⟨s, cl, bufWriteList (fun _ => 0) 0 [82, 82, 69, 71],
        bufWriteList (fun _ => 0) 0 (hex2 a), cr⟩ env ab).1.length = 19
    ∧ ((cmdParser_CommitCmd ⟨s, cl, bufWriteList (fun _ => 0) 0 [82, 82, 69, 71],
        bufWriteList (fun _ => 0) 0 (hex2 a), cr⟩ env ab).1).take 14
      = [32, 32, 32, 35, 48, 48, 48, 65, 82, 82, 69, 71]
          ++ hex2 (env.accesRegs ((a : Nat) : Int) % 256) := by
  have hm0 : (bufWriteList (fun _ => 0) 0 (hex2 a)) 0 = hexDigit (a / 16 % 16) := rfl
  have hm1 : (bufWriteList (fun _ => 0) 0 (hex2 a)) 1 = hexDigit (a % 16) := rfl
  have hcommit : cmdParser_CommitCmd ⟨s, cl, bufWriteList (fun _ => 0) 0 [82, 82, 69, 71],
      bufWriteList (fun _ => 0) 0 (hex2 a), cr⟩ env ab
      = ((List.range 19).map (bufWrite (bufWriteList (bufWriteList (bufWriteList ab 0
            ([32, 32, 32, 35, 48, 48, 48, 65] ++ CMD_RREG)) 12
            (hex2 (env.accesRegs ((a : Nat) : Int) % 256) ++ [0])) 14
            (hex4 (getCRC ((List.range 10).map fun k =>
              (bufWriteList (bufWriteList ab 0
                ([32, 32, 32, 35, 48, 48, 48, 65] ++ CMD_RREG)) 12
                (hex2 (env.accesRegs ((a : Nat) : Int) % 256) ++ [0])) (4 + k))) ++ [0]))
            18 0),
          ⟨env.quadrant, [], none⟩) := by
    simp only [cmdParser_CommitCmd]
    rw [show CP_CMD_FIELD_LEN = 5 from rfl,
      cstr_write4 82 82 69 71 (by omega) (by omega) (by omega) (by omega),
      if_neg (by decide), if_pos (show ([82, 82, 69, 71] : List Nat) = CMD_RREG from rfl)]
    rw [hm0, hm1,
      takeWhile_pair_ne_zero _ _ (hexDigit_ne_zero _) (hexDigit_ne_zero _),
      show ([hexDigit (a / 16 % 16), hexDigit (a % 16)] : List Nat) = hex2 a from rfl,
      toHex_hex2 a hb]
    rw [if_neg (show ¬ isQuadrantRegister ((a : Nat) : Int) = true by
        simp [isQuadrantRegister, REG_XSPLIT, REG_DBURNERT]
        omega)]
    rw [if_neg (show ¬ (((a : Nat) : Int) = 0xB2 ∨ ((a : Nat) : Int) = 0xB3) by
        push_neg
        constructor <;> (intro h; omega))]
  refine ⟨by rw [hcommit], by rw [hcommit]; simp, ?_⟩
  rw [hcommit]
  rw [show ((List.range 19).map (bufWrite (bufWriteList (bufWriteList (bufWriteList ab 0
        ([32, 32, 32, 35, 48, 48, 48, 65] ++ CMD_RREG)) 12
        (hex2 (env.accesRegs ((a : Nat) : Int) % 256) ++ [0])) 14
        (hex4 (getCRC ((List.range 10).map fun k =>
          (bufWriteList (bufWriteList ab 0
            ([32, 32, 32, 35, 48, 48, 48, 65] ++ CMD_RREG)) 12
            (hex2 (env.accesRegs ((a : Nat) : Int) % 256) ++ [0])) (4 + k))) ++ [0]))
        18 0)).take 14
      = (List.range 14).map (bufWrite (bufWriteList (bufWriteList (bufWriteList ab 0
        ([32, 32, 32, 35, 48, 48, 48, 65] ++ CMD_RREG)) 12
        (hex2 (env.accesRegs ((a : Nat) : Int) % 256) ++ [0])) 14
        (hex4 (getCRC ((List.range 10).map fun k =>
          (bufWriteList (bufWriteList ab 0
            ([32, 32, 32, 35, 48, 48, 48, 65] ++ CMD_RREG)) 12
            (hex2 (env.accesRegs ((a : Nat) : Int) % 256) ++ [0])) (4 + k))) ++ [0]))
        18 0) by
      rw [← List.map_take]
      congr 1]
  exact rfl

/-- C8 (counterexample): with the external sensor register file answering
0x12 everywhere and the device-ID bytes all 0x34, the RREG response for
address 0xE0 carries the payload `"12"` - the external register - not
`"34"`, the device-ID byte the claim promises. -/
theorem deviceId_rreg_routes_external_cex :
    ((cmdServerReceive deviceIdEnv sampleSt
        (buildPacket [82, 82, 69, 71] (hex2 224))).2.1).take 14
      = [32, 32, 32, 35, 48, 48, 48, 65, 82, 82, 69, 71, 49, 50]
    ∧ hex2 (deviceIdEnv.mDeviceId 0) = [51, 52]
    ∧ ([49, 50] : List Nat) ≠ [51, 52] := by
  decide

/-- C8: `quadrant_ReadRegister` itself does map each device-ID address
`0xE0 + i` (`i < 6`) to the i-th identity byte, most significant first.
But a read issued over the command channel never reaches it for these
addresses: `cmdParser_CommitCmd`'s RREG branch only routes
`isQuadrantRegister` addresses (0xC0-0xD5) to `quadrant_ReadRegister`, so
0xE0-0xE5 fall through to the EXTERNAL sensor register file
(`Acces_Read_Reg`), whose 8-bit value is what the 19-byte ACK carries. -/
theorem deviceId_read_routing (env : CmdEnv) (st : CmdServerState) (i : Nat)
    (hph : st.phaser = freshCmdPhaser) (hi : i < 6) :
    quadrant_ReadRegister env.quadrant env.mDeviceId (224 + i) = env.mDeviceId i
    ∧ isQuadrantRegister ((224 + i : Nat) : Int) = false
    ∧ (cmdServerReceive env st (buildPacket [82, 82, 69, 71] (hex2 (224 + i)))).2.2
        = ⟨env.quadrant, [], none⟩
    ∧ ((cmdServerReceive env st (buildPacket [82, 82, 69, 71] (hex2 (224 + i)))).2.1).take 14
        = [32, 32, 32, 35, 48, 48, 48, 65, 82, 82, 69, 71]
            ++ hex2 (env.accesRegs ((224 + i : Nat) : Int) % 256) := by
  have hparse := pharseCmd_buildPacket 82 82 69 71 (hex2 (224 + i)) (by simp [hex2])
  have hfst : (cmdParser_PharseCmd freshCmdPhaser
      (buildPacket [82, 82, 69, 71] (hex2 (224 + i)))).1
      = ⟨.CRC, bufWriteList (fun _ => 0) 0 (hex4 ((hex2 (224 + i)).length + 8)),
          bufWriteList (fun _ => 0) 0 [82, 82, 69, 71],
          bufWriteList (fun _ => 0) 0 (hex2 (224 + i)),
          bufWriteList (fun _ => 0) 0 [88, 88, 88, 88]⟩ := by
    rw [hparse]
  have hc := commit_rreg_external .CRC
    (bufWriteList (fun _ => 0) 0 (hex4 ((hex2 (224 + i)).length + 8)))
    (bufWriteList (fun _ => 0) 0 [88, 88, 88, 88]) env st.mAckBuff (224 + i)
    (by omega) (by omega)
  refine ⟨?_, ?_, ?_, ?_⟩
  · interval_cases i <;> rfl
  · simp only [isQuadrantRegister, REG_XSPLIT, REG_DBURNERT]
    simp only [Bool.and_eq_false_iff, decide_eq_false_iff_not]
    right
    push_cast
    omega
  · simp only [cmdServerReceive]
    rw [hph, hfst]
    exact hc.1
  · simp only [cmdServerReceive]
    rw [hph, hfst]
    have hlen : (cmdParser_CommitCmd
        ⟨.CRC, bufWriteList (fun _ => 0) 0 (hex4 ((hex2 (224 + i)).length + 8)),
          bufWriteList (fun _ => 0) 0 [82, 82, 69, 71],
          bufWriteList (fun _ => 0) 0 (hex2 (224 + i)),
          bufWriteList (fun _ => 0) 0 [88, 88, 88, 88]⟩ env st.mAckBuff).1.length = 19 :=
      hc.2.1
    rw [if_pos (by rw [hlen]; omega)]
    exact hc.2.2

/-- C8 (witness): the routing theorem at address 0xE0 (`i = 0`) in the
device-ID sample environment: the map itself yields device byte 0x34, but
the command-channel response payload is the external register 0x12. -/
theorem deviceId_read_routing_witness :
    quadrant_ReadRegister deviceIdEnv.quadrant deviceIdEnv.mDeviceId (224 + 0)
        = deviceIdEnv.mDeviceId 0
    ∧ isQuadrantRegister ((224 + 0 : Nat) : Int) = false
    ∧ (cmdServerReceive deviceIdEnv sampleSt
        (buildPacket [82, 82, 69, 71] (hex2 (224 + 0)))).2.2
        = ⟨deviceIdEnv.quadrant, [], none⟩
    ∧ ((cmdServerReceive deviceIdEnv sampleSt
        (buildPacket [82, 82, 69, 71] (hex2 (224 + 0)))).2.1).take 14
        = [32, 32, 32, 35, 48, 48, 48, 65, 82, 82, 69, 71]
            ++ hex2 (deviceIdEnv.accesRegs ((224 + 0 : Nat) : Int) % 256) :=
  deviceId_read_routing deviceIdEnv sampleSt 0 rfl (by decide)

/-! ## Combustion BLE temperature packing (Drv_CombustionBle.c) and
decoding (BLEManager.swift) -/

/-- `COMBUSTION_TEMP_MAX_RAW` (Drv_CombustionBle.c): the 13-bit ceiling. -/
def COMBUSTION_TEMP_MAX_RAW : Nat := 8191

/-- Bit `7 - q % 8` of byte `q / 8`: the q-th bit of a byte buffer in the
MSB-first bit-stream order both the packer and the decoder use. -/
def bufBit (f : Nat → Nat) (q : Nat) : Bool :=
  (f (q / 8)).testBit (7 - q % 8)

/-- One inner-loop step of `combustionBle_PackTemps` (Drv_CombustionBle.c):
the loop counts `b` from 12 down to 0, so at inner index `k` the bit is
`b = 12 - k`; `acc` is the pair `(output, bit_pos)`, and
`val & (1 << b)` / `output[byte_idx] |= 1 << bit_in_byte` are the test and
set of single bits. -/
def packInner (val : Nat) (acc : (Nat → Nat) × Nat) (k : Nat) : (Nat → Nat) × Nat :=
  let b := 12 - k
  let byte_idx := acc.2 / 8
  let bit_in_byte := 7 - acc.2 % 8
  (if val.testBit b
   then bufWrite acc.1 byte_idx (acc.1 byte_idx ||| 2 ^ bit_in_byte)
   else acc.1,
   acc.2 + 1)

/-- `combustionBle_PackTemps` (Drv_CombustionBle.c): pack 8 13-bit values
MSB-first into 13 zero-initialized bytes (`memset(output, 0, 13)`). -/
def combustionBle_PackTemps (encoded_temps : Nat → Nat) : Nat → Nat :=
  ((List.range 8).foldl
    (fun acc i => (List.range 13).foldl (packInner (encoded_temps i)) acc)
    (fun _ => 0, 0)).1

/-- One temperature of `decodeTemperatures` (BLEManager.swift) at the
raw-value level: 13 bits MSB-first starting at `bitPosition`, with the
`byteIndex < data.count` guard; the final Celsius conversion
`raw * 0.05 - 20` is not part of the bit codec. -/
def decodeTemperatureRaw (data : Nat → Nat) (dataCount bitPosition : Nat) : Nat :=
  (List.range 13).foldl
    (fun raw bit =>
      if decide ((bitPosition + bit) / 8 < dataCount)
          && (data ((bitPosition + bit) / 8)).testBit (7 - (bitPosition + bit) % 8)
      then raw ||| 2 ^ (12 - bit) else raw) 0

/-- `decodeTemperatures` (BLEManager.swift) at the raw-value level: after
the `data.count >= 13` guard, the loop decodes one raw value per iteration
(`bitPosition` advancing by 13) and converts it - but the source never
appends the result to its `temperatures` array, so the returned list stays
empty.  The decoded value is bound and discarded exactly as in the
source. -/
def decodeTemperatures (data : Nat → Nat) (dataCount : Nat) : List Nat :=
  if 13 ≤ dataCount then
    (List.range 8).foldl
      (fun temperatures i =>
        let _rawValue := decodeTemperatureRaw data dataCount (13 * i)
        temperatures)
      []
  else []

lemma packInner_run (v : Nat) : ∀ (len k0 : Nat) (f : Nat → Nat) (p : Nat),
    ((List.range' k0 len).foldl (packInner v) (f, p)).2 = p + len
    ∧ ∀ q, bufBit ((List.range' k0 len).foldl (packInner v) (f, p)).1 q
        = if p ≤ q ∧ q < p + len
          then (bufBit f q || v.testBit (12 - (k0 + (q - p))))
          else bufBit f q := by
  intro len
  induction len with
  | zero =>
    intro k0 f p
    refine ⟨rfl, fun q => ?_⟩
    rw [if_neg (by omega)]
    rfl
  | succ n ih =>
    intro k0 f p
    rw [List.range'_succ k0 n 1, List.foldl_cons]
    rw [show packInner v (f, p) k0
        = ((if v.testBit (12 - k0) = true
            then bufWrite f (p / 8) (f (p / 8) ||| 2 ^ (7 - p % 8)) else f), p + 1) from rfl]
    obtain ⟨ihs, ihb⟩ := ih (k0 + 1)
      (if v.testBit (12 - k0) = true
       then bufWrite f (p / 8) (f (p / 8) ||| 2 ^ (7 - p % 8)) else f) (p + 1)
    refine ⟨by rw [ihs]; omega, fun q => ?_⟩
    rw [ihb q]
    have hf' : bufBit (if v.testBit (12 - k0) = true
        then bufWrite f (p / 8) (f (p / 8) ||| 2 ^ (7 - p % 8)) else f) q
        = if q = p then (bufBit f q || v.testBit (12 - k0)) else bufBit f q := by
      by_cases hq : q = p
      · subst hq
        rw [if_pos rfl]
        by_cases hv : v.testBit (12 - k0) = true
        · rw [if_pos hv, hv]
          simp only [bufBit, bufWrite]
          simp [Nat.testBit_or, Nat.testBit_two_pow_self]
        · rw [if_neg hv]
          rw [Bool.not_eq_true] at hv
          rw [hv]
          simp
      · rw [if_neg hq]
        by_cases hv : v.testBit (12 - k0) = true
        · rw [if_pos hv]
          by_cases hb : q / 8 = p / 8
          · have hne : 7 - p % 8 ≠ 7 - q % 8 := by omega
            simp only [bufBit, bufWrite, hb]
            simp [Nat.testBit_or, Nat.testBit_two_pow_of_ne hne]
          · simp only [bufBit, bufWrite, if_neg hb]
        · rw [if_neg hv]
    rw [hf']
    by_cases hq : q = p
    · subst hq
      rw [if_pos rfl, if_neg (by omega), if_pos (by omega)]
      rw [show 12 - (k0 + (q - q)) = 12 - k0 by omega]
    · rw [if_neg hq]
      by_cases hq2 : p + 1 ≤ q ∧ q < p + 1 + n
      · rw [if_pos hq2, if_pos (by omega)]
        rw [show 12 - (k0 + 1 + (q - (p + 1))) = 12 - (k0 + (q - p)) by omega]
      · rw [if_neg hq2, if_neg (by omega)]

lemma packOuter_run (temps : Nat → Nat) : ∀ (n i0 : Nat) (f : Nat → Nat) (p : Nat),
    ((List.range' i0 n).foldl
        (fun acc i => (List.range 13).foldl (packInner (temps i)) acc) (f, p)).2 = p + 13 * n
    ∧ ∀ q, bufBit ((List.range' i0 n).foldl
        (fun acc i => (List.range 13).foldl (packInner (temps i)) acc) (f, p)).1 q
      = if p ≤ q ∧ q < p + 13 * n
        then (bufBit f q || (temps (i0 + (q - p) / 13)).testBit (12 - (q - p) % 13))
        else bufBit f q := by
  intro n
  induction n with
  | zero =>
    intro i0 f p
    refine ⟨by simp, fun q => ?_⟩
    rw [if_neg (by omega)]
    rfl
  | succ m ih =>
    intro i0 f p
    rw [List.range'_succ i0 m 1, List.foldl_cons]
    obtain ⟨hsnd1, hbit1⟩ := packInner_run (temps i0) 13 0 f p
    have hip : List.foldl (packInner (temps i0)) (f, p) (List.range 13)
        = ((List.foldl (packInner (temps i0)) (f, p) (List.range 13)).1, p + 13) := by
      rw [List.range_eq_range' 13, ← hsnd1]
    have hbitr : ∀ q, bufBit (List.foldl (packInner (temps i0)) (f, p) (List.range 13)).1 q
        = if p ≤ q ∧ q < p + 13
          then (bufBit f q || (temps i0).testBit (12 - (0 + (q - p))))
          else bufBit f q := by
      intro q
      rw [List.range_eq_range' 13]
      exact hbit1 q
    rw [hip]
    obtain ⟨ihs, ihb⟩ := ih (i0 + 1)
      ((List.foldl (packInner (temps i0)) (f, p) (List.range 13)).1) (p + 13)
    refine ⟨by rw [ihs]; omega, fun q => ?_⟩
    rw [ihb q, hbitr q]
    by_cases h1 : p ≤ q ∧ q < p + 13
    · rw [if_neg (by omega), if_pos h1, if_pos (by omega)]
      rw [show i0 + (q - p) / 13 = i0 by omega,
        show 12 - (q - p) % 13 = 12 - (0 + (q - p)) by omega]
    · by_cases h2 : p + 13 ≤ q ∧ q < p + 13 + 13 * m
      · rw [if_pos h2, if_neg h1, if_pos (by omega)]
        rw [show i0 + 1 + (q - (p + 13)) / 13 = i0 + (q - p) / 13 by omega,
          show 12 - (q - (p + 13)) % 13 = 12 - (q - p) % 13 by omega]
      · rw [if_neg h2, if_neg h1, if_neg (by omega)]

lemma packTemps_bufBit (temps : Nat → Nat) (q : Nat) :
    bufBit (combustionBle_PackTemps temps) q
      = if q < 104 then (temps (q / 13)).testBit (12 - q % 13) else false := by
  unfold combustionBle_PackTemps
  rw [List.range_eq_range' 8]
  rw [(packOuter_run temps 8 0 (fun _ => 0) 0).2 q]
  have hz : bufBit (fun _ => 0) q = false := by
    simp [bufBit, Nat.zero_testBit]
  by_cases hq : q < 104
  · rw [if_pos (by omega), if_pos hq, hz]
    rw [show (0 : Nat) + (q - 0) / 13 = q / 13 by omega,
      show 12 - (q - 0) % 13 = 12 - q % 13 by omega]
    simp
  · rw [if_neg (by omega), if_neg hq, hz]

lemma decodeRaw_run (v : Nat) : ∀ (len bit0 raw : Nat), bit0 + len = 13 →
    (∀ m, raw.testBit m = (v.testBit m && decide (13 - bit0 ≤ m))) →
    (List.range' bit0 len).foldl
      (fun raw bit => if v.testBit (12 - bit) = true then raw ||| 2 ^ (12 - bit) else raw)
      raw = v := by
  intro len
  induction len with
  | zero =>
    intro bit0 raw h13 hinv
    apply Nat.eq_of_testBit_eq
    intro m
    have := hinv m
    rw [show 13 - bit0 = 0 by omega] at this
    simpa using this
  | succ n ih =>
    intro bit0 raw h13 hinv
    rw [List.range'_succ bit0 n 1, List.foldl_cons]
    apply ih (bit0 + 1) _ (by omega)
    intro m
    by_cases hm : m = 12 - bit0
    · subst hm
      by_cases hv : v.testBit (12 - bit0) = true
      · rw [if_pos hv, Nat.testBit_or, Nat.testBit_two_pow_self, hv]
        simp [show 13 - (bit0 + 1) ≤ 12 - bit0 by omega]
      · rw [if_neg hv, hinv (12 - bit0)]
        rw [Bool.not_eq_true] at hv
        rw [hv]
        simp
    · have hd : decide (13 - bit0 ≤ m) = decide (13 - (bit0 + 1) ≤ m) := by
        rw [decide_eq_decide]
        omega
      by_cases hv : v.testBit (12 - bit0) = true
      · rw [if_pos hv, Nat.testBit_or, Nat.testBit_two_pow_of_ne (fun h => hm h.symm),
          Bool.or_false, hinv m, hd]
      · rw [if_neg hv, hinv m, hd]

lemma decodeRaw_reconstruct (v : Nat) (hv : v < 8192) :
    (List.range 13).foldl
      (fun raw bit => if v.testBit (12 - bit) = true then raw ||| 2 ^ (12 - bit) else raw)
      0 = v := by
  rw [List.range_eq_range' 13]
  apply decodeRaw_run v 13 0 0 (by omega)
  intro m
  rw [Nat.zero_testBit]
  by_cases hm : 13 ≤ m
  · rw [Nat.testBit_lt_two_pow (by
      calc v < 8192 := hv
        _ = 2 ^ 13 := by norm_num
        _ ≤ 2 ^ m := Nat.pow_le_pow_right (by omega) hm)]
    simp
  · simp [show ¬ (13 - 0 ≤ m) by omega]

/-- The per-value decode loop inverts the packer exactly: reading 13 bits
MSB-first at `bitPosition = 13 * i` from the packed buffer recovers the
i-th 13-bit value. -/
lemma decodeTemperatureRaw_packTemps (temps : Nat → Nat)
    (h : ∀ i, i < 8 → temps i ≤ COMBUSTION_TEMP_MAX_RAW)
    (i : Nat) (hi : i < 8) :
    decodeTemperatureRaw (combustionBle_PackTemps temps) 13 (13 * i) = temps i := by
  unfold decodeTemperatureRaw
  have hfold : (List.range 13).foldl
      (fun raw bit =>
        if decide ((13 * i + bit) / 8 < 13)
            && (combustionBle_PackTemps temps ((13 * i + bit) / 8)).testBit
              (7 - (13 * i + bit) % 8)
        then raw ||| 2 ^ (12 - bit) else raw) 0
      = (List.range 13).foldl
        (fun raw bit =>
          if (temps i).testBit (12 - bit) = true then raw ||| 2 ^ (12 - bit) else raw) 0 := by
    apply List.foldl_ext
    intro raw bit hbit
    rw [List.mem_range] at hbit
    have hb : (combustionBle_PackTemps temps ((13 * i + bit) / 8)).testBit
        (7 - (13 * i + bit) % 8) = (temps i).testBit (12 - bit) := by
      have hp := packTemps_bufBit temps (13 * i + bit)
      rw [bufBit] at hp
      rw [hp, if_pos (by omega)]
      rw [show (13 * i + bit) / 13 = i by omega,
        show 12 - (13 * i + bit) % 13 = 12 - bit by omega]
    rw [hb, show decide ((13 * i + bit) / 8 < 13) = true by
      rw [decide_eq_true_eq]
      omega]
    rw [Bool.true_and]
  rw [hfold]
  exact decodeRaw_reconstruct (temps i) (by
    have := h i hi
    rw [COMBUSTION_TEMP_MAX_RAW] at this
    omega)

lemma decodeTemperatures_nil (data : Nat → Nat) (dataCount : Nat) :
    decodeTemperatures data dataCount = [] := by
  unfold decodeTemperatures
  split <;> rfl

/-- C7 (counterexample): packing the eight 13-bit values 100*i + 1 and
running the viewer's decoder returns the empty list, not the 8 values; yet
the decoder's own per-value bit loop does recover them (value 0 decodes to
1), so only the missing append loses them. -/
theorem packTemps_decode_lost_cex :
    decodeTemperatures (combustionBle_PackTemps (fun i => 100 * i + 1)) 13 = []
    ∧ (List.range 8).map (fun i => 100 * i + 1) ≠ []
    ∧ decodeTemperatureRaw (combustionBle_PackTemps (fun i => 100 * i + 1)) 13 0 = 1 := by
  refine ⟨decodeTemperatures_nil _ _, by decide, by decide⟩

/-- C7: the bit-packing itself round-trips exactly - the decoder's 13-bit
MSB-first read at `bitPosition = 13 * i` recovers every one of the 8 packed
values over the whole range 0..8191 - but the claimed end-to-end round-trip
fails: `decodeTemperatures` never appends the decoded values to its result
array, so it returns the empty list for every input and every packed value
is lost. -/
theorem packTemps_decode_roundTrip (temps : Nat → Nat)
    (h : ∀ i, i < 8 → temps i ≤ COMBUSTION_TEMP_MAX_RAW) :
    (∀ i, i < 8 →
      decodeTemperatureRaw (combustionBle_PackTemps temps) 13 (13 * i) = temps i)
    ∧ (∀ data dataCount, decodeTemperatures data dataCount = [])
    ∧ decodeTemperatures (combustionBle_PackTemps temps) 13
        ≠ (List.range 8).map temps := by
  refine ⟨fun i hi => decodeTemperatureRaw_packTemps temps h i hi,
    fun data dataCount => decodeTemperatures_nil data dataCount, ?_⟩
  rw [decodeTemperatures_nil]
  intro he
  have : ((List.range 8).map temps).length = 0 := by rw [← he]; rfl
  simp at this

/-- C7 (witness): the theorem at the concrete encodings 1000*i + 7 (all
within 0..8191): each value decodes back exactly, and the decoder's result
list is nevertheless empty. -/
theorem packTemps_decode_roundTrip_witness :
    (∀ i, i < 8 →
      decodeTemperatureRaw (combustionBle_PackTemps (fun i => 1000 * i + 7)) 13 (13 * i)
        = 1000 * i + 7)
    ∧ (∀ data dataCount, decodeTemperatures data dataCount = [])
    ∧ decodeTemperatures (combustionBle_PackTemps (fun i => 1000 * i + 7)) 13
        ≠ (List.range 8).map (fun i => 1000 * i + 7) :=
  packTemps_decode_roundTrip (fun i => 1000 * i + 7) (by
    intro i hi
    show 1000 * i + 7 ≤ COMBUSTION_TEMP_MAX_RAW
    rw [COMBUSTION_TEMP_MAX_RAW]
    omega)
